import Mathlib

/-
Verification of the temporal feature and rating pipeline of the
PredictiveEdge repository (backend/src): the ELO rating pass
(feature_engineering.calculate_elo_ratings), the point-in-time form
window queries (get_rolling_averages, get_h2h_win_pct, get_days_rest),
the feature builder (create_feature_set), the odds converter and the
backtest simulator (backtesting.py), and the inference-time rating
lookup (predict.get_current_elo).

Modelling conventions: dates are day ordinals (natural numbers), team
and game identifiers are natural numbers, scores are integers, money
and box-score statistics are rationals, ELO ratings are reals (the
source computes 10 ** (x / 400) in floating point; we idealise the
arithmetic over the reals).  A database query result is passed to each
function as an explicit list, in the order the query returns it.  The
Python dict of ratings, which raises KeyError on a missing team, is a
function to Option, and the rating pass returns none where the Python
code would raise.
-/

namespace PredictiveEdge

/-! ## Constants from src/backend/src/config.py -/

def ELO_INITIAL : ℝ := 1500

def ELO_K_FACTOR : ℝ := 20

def ELO_HOME_ADVANTAGE : ℝ := 100

def ROLLING_WINDOW : ℕ := 10

def VALUE_EDGE_THRESHOLD : ℚ := 3 / 100

/-! ## Data model, from src/backend/src/database.py -/

/-- Row of the games table.  The two pregame elo columns are nullable
and written only by the rating pass. -/
structure Game where
  game_id : ℕ
  date : ℕ
  season : ℤ
  home_team_id : ℕ
  away_team_id : ℕ
  home_score : Option ℤ
  away_score : Option ℤ
  home_team_pregame_elo : Option ℝ
  away_team_pregame_elo : Option ℝ

/-- Row of the team_box_scores table (only the columns the form window
reads). -/
structure TeamBoxScore where
  game_id : ℕ
  team_id : ℕ
  is_home : Bool
  pts : ℚ
  fg_pct : ℚ
  tov : ℚ
  plus_minus : ℚ
  trb : ℚ
  ast : ℚ
deriving DecidableEq

/-- Row of the odds table (only the moneyline columns are read by the
backtest). -/
structure Odds where
  game_id : ℕ
  home_team_moneyline : Option ℤ
  away_team_moneyline : Option ℤ
deriving DecidableEq

/-- The queryable store: the games table and the box-score table, each
in the order the underlying query returns rows. -/
structure Db where
  games : List Game
  box_scores : List TeamBoxScore

/-! ## Odds converter, from src/backend/src/backtesting.py -/

/-- Convert American moneyline odds to implied probability
(moneyline_to_implied_prob in backtesting.py). -/
def moneyline_to_implied_prob (moneyline : ℤ) : ℚ :=
  if 0 < moneyline then
    100 / ((moneyline : ℚ) + 100)
  else
    (moneyline.natAbs : ℚ) / ((moneyline.natAbs : ℚ) + 100)

/-- Total payout of a winning bet, original stake included
(moneyline_to_payout in backtesting.py). -/
def moneyline_to_payout (moneyline : ℤ) (bet_amount : ℚ) : ℚ :=
  if 0 < moneyline then
    bet_amount * (1 + (moneyline : ℚ) / 100)
  else
    bet_amount * (1 + 100 / (moneyline.natAbs : ℚ))

/-! ## ELO rating pass, from calculate_elo_ratings in
src/backend/src/feature_engineering.py -/

/-- Expected home win probability: logistic rating formula with the
home advantage offset added to the home rating before comparison
(lines 50 to 53 of feature_engineering.py). -/
noncomputable def expected_home_win (home_elo away_elo : ℝ) : ℝ :=
  1 / (1 + (10 : ℝ) ^ ((away_elo - (home_elo + ELO_HOME_ADVANTAGE)) / 400))

/-- Stamp the two pregame elo columns of a game (lines 45 and 46 of
feature_engineering.py). -/
def stamp_pregame (g : Game) (rh ra : ℝ) : Game :=
  { g with home_team_pregame_elo := some rh, away_team_pregame_elo := some ra }

/-- One iteration of the loop body of calculate_elo_ratings: read the
current ratings of both teams from the dict (none models the KeyError
the Python dict raises for a team that was never registered), stamp
the pregame elo columns unconditionally, and update both ratings when
the game has a recorded result.  The rating map is written first at
the home key and then at the away key, so for a degenerate game whose
two sides are the same team the away write wins, as in Python. -/
noncomputable def process_game (ratings : ℕ → Option ℝ) (game : Game) :
    Option (Game × (ℕ → Option ℝ)) :=
  match ratings game.home_team_id, ratings game.away_team_id with
  | some home_elo, some away_elo =>
    match game.home_score, game.away_score with
    | some hs, some as_ =>
      let actual_home_score : ℝ := if as_ < hs then 1 else if hs < as_ then 0 else 0.5
      let actual_away_score : ℝ := if as_ < hs then 0 else if hs < as_ then 1 else 0.5
      let e_home := expected_home_win home_elo away_elo
      let e_away := 1 - e_home
      let home_elo_change := ELO_K_FACTOR * (actual_home_score - e_home)
      let away_elo_change := ELO_K_FACTOR * (actual_away_score - e_away)
      some (stamp_pregame game home_elo away_elo, fun t =>
        if t = game.away_team_id then some (away_elo + away_elo_change)
        else if t = game.home_team_id then some (home_elo + home_elo_change)
        else ratings t)
    | _, _ => some (stamp_pregame game home_elo away_elo, ratings)
  | _, _ => none

/-- Initial rating dict built from the teams table: every registered
team starts at ELO_INITIAL, any other identifier is absent (lines 28
to 30 of feature_engineering.py). -/
def init_ratings (teams : List ℕ) : ℕ → Option ℝ :=
  fun t => if t ∈ teams then some ELO_INITIAL else none

/-- The chronological loop of calculate_elo_ratings: fold process_game
over the ordered game list, returning the stamped games and the final
rating dict, or none where the Python loop would raise KeyError. -/
noncomputable def process_games (ratings : ℕ → Option ℝ) :
    List Game → Option (List Game × (ℕ → Option ℝ))
  | [] => some ([], ratings)
  | g :: rest =>
    (process_game ratings g).bind fun p =>
      (process_games p.2 rest).map fun q => (p.1 :: q.1, q.2)

/-- calculate_elo_ratings: initialise every registered team at
ELO_INITIAL and process all games in query order (date, then
game_id); the games argument is the result of that ordered query. -/
noncomputable def calculate_elo_ratings (teams : List ℕ) (games : List Game) :
    Option (List Game × (ℕ → Option ℝ)) :=
  process_games (init_ratings teams) games

/-- Sum of the ratings of a list of teams under a rating dict, with 0
for an absent entry; used to state the zero-sum invariant. -/
noncomputable def sum_ratings (teams : List ℕ) (m : ℕ → Option ℝ) : ℝ :=
  (teams.map fun t => (m t).getD 0).sum

/-- Completed game between teams 1 and 2 used as concrete input for
the rating-pass claims. -/
def sample_game : Game :=
  { game_id := 1, date := 10, season := 2024, home_team_id := 1,
    away_team_id := 2, home_score := some 100, away_score := some 90,
    home_team_pregame_elo := none, away_team_pregame_elo := none }

/-- Scheduled (result-less) game between teams 1 and 2. -/
def scheduled_game : Game :=
  { game_id := 2, date := 11, season := 2024, home_team_id := 1,
    away_team_id := 2, home_score := none, away_score := none,
    home_team_pregame_elo := none, away_team_pregame_elo := none }

/-! ## Generic stable insertion sort, used to model the ORDER BY
clauses of the queries -/

/-- Insert x into l, keeping y in front of x whenever keep y x. -/
def ins_by {α : Type} (keep : α → α → Bool) (x : α) : List α → List α
  | [] => [x]
  | y :: ys => if keep y x then y :: ins_by keep x ys else x :: y :: ys

/-- Insertion sort with the given front-keeping relation. -/
def sort_by {α : Type} (keep : α → α → Bool) (l : List α) : List α :=
  l.foldr (ins_by keep) []

/-- ORDER BY key DESC. -/
def sort_by_date_desc {α : Type} (key : α → ℕ) (l : List α) : List α :=
  sort_by (fun y x => decide (key x ≤ key y)) l

/-- ORDER BY key ASC. -/
def sort_by_date_asc {α : Type} (key : α → ℕ) (l : List α) : List α :=
  sort_by (fun y x => decide (key y ≤ key x)) l

/-! ## Form window, from src/backend/src/feature_engineering.py -/

/-- Result record of get_rolling_averages. -/
structure RollingStats where
  avg_pts_scored : ℚ
  avg_pts_allowed : ℚ
  avg_fg_pct : ℚ
  avg_tov : ℚ
  avg_plus_minus : ℚ
  avg_rebounds : ℚ
  avg_assists : ℚ
deriving DecidableEq

/-- The all-zero default returned on a cold start. -/
def zero_rolling_stats : RollingStats := ⟨0, 0, 0, 0, 0, 0, 0⟩

/-- The query of get_rolling_averages (lines 97 to 101): box scores
of the team joined to their games, keeping completed games strictly
before the game date, ordered by date descending, limited to the
window.  The join resolves each box score to the first game with its
game_id, as the foreign key does. -/
def rolling_box_scores (db : Db) (team_id : ℕ) (game_date : ℕ)
    (window : ℕ) : List (TeamBoxScore × Game) :=
  (sort_by_date_desc (fun p => p.2.date)
    (db.box_scores.filterMap fun bs =>
      if bs.team_id = team_id then
        match db.games.find? (fun g => g.game_id == bs.game_id) with
        | some g =>
          if g.date < game_date ∧ g.home_score.isSome then some (bs, g)
          else none
        | none => none
      else none)).take window

/-- get_rolling_averages: arithmetic mean of each stat over the
window; points allowed come from the opponent score of each game
through the is_home flag, with a missing score read as 0 as the
Python expression (score or 0) does. -/
def get_rolling_averages (db : Db) (team_id : ℕ) (game_date : ℕ)
    (window : ℕ) : RollingStats :=
  let box_scores := rolling_box_scores db team_id game_date window
  if box_scores.isEmpty then zero_rolling_stats
  else
    let n : ℚ := box_scores.length
    let total_pts := (box_scores.map fun p => p.1.pts).sum
    let total_fg_pct := (box_scores.map fun p => p.1.fg_pct).sum
    let total_tov := (box_scores.map fun p => p.1.tov).sum
    let total_plus_minus := (box_scores.map fun p => p.1.plus_minus).sum
    let total_rebounds := (box_scores.map fun p => p.1.trb).sum
    let total_assists := (box_scores.map fun p => p.1.ast).sum
    let total_pts_allowed := (box_scores.map fun p =>
      if p.1.is_home then ((p.2.away_score.getD 0 : ℤ) : ℚ)
      else ((p.2.home_score.getD 0 : ℤ) : ℚ)).sum
    { avg_pts_scored := if 0 < n then total_pts / n else 0
      avg_pts_allowed := if 0 < n then total_pts_allowed / n else 0
      avg_fg_pct := if 0 < n then total_fg_pct / n else 0
      avg_tov := if 0 < n then total_tov / n else 0
      avg_plus_minus := if 0 < n then total_plus_minus / n else 0
      avg_rebounds := if 0 < n then total_rebounds / n else 0
      avg_assists := if 0 < n then total_assists / n else 0 }

/-- The query of get_h2h_win_pct (lines 150 to 155): games between
the two teams strictly before the date whose home score is
recorded. -/
def h2h_games (db : Db) (team_id opponent_id : ℕ) (game_date : ℕ) :
    List Game :=
  db.games.filter fun g =>
    (((g.home_team_id == team_id) && (g.away_team_id == opponent_id)) ||
     ((g.home_team_id == opponent_id) && (g.away_team_id == team_id))) &&
    decide (g.date < game_date) && g.home_score.isSome

/-- get_h2h_win_pct (lines 145 to 169): among the h2h games, the
fraction won by team_id; games missing either score are skipped in
the win count but kept in the denominator, as in the source loop. -/
def get_h2h_win_pct (db : Db) (team_id opponent_id : ℕ)
    (game_date : ℕ) : ℚ :=
  let games := h2h_games db team_id opponent_id game_date
  if games.isEmpty then 0.5
  else
    let wins := games.countP fun g =>
      g.home_score.isSome && g.away_score.isSome &&
      (((g.home_team_id == team_id) &&
          decide (g.away_score.getD 0 < g.home_score.getD 0)) ||
       ((g.away_team_id == team_id) &&
          decide (g.home_score.getD 0 < g.away_score.getD 0)))
    if 0 < games.length then (wins : ℚ) / (games.length : ℚ) else 0.5

/-- The query of get_days_rest (lines 176 to 180): completed games of
the team strictly before the date, through the box-score join. -/
def rest_games (db : Db) (team_id : ℕ) (game_date : ℕ) : List Game :=
  db.games.filter fun g =>
    db.box_scores.any
      (fun bs => (bs.team_id == team_id) && (bs.game_id == g.game_id)) &&
    decide (g.date < game_date) && g.home_score.isSome

/-- get_days_rest (lines 172 to 186): days from the most recent
completed game of the team strictly before the date; default 3 with
no history, clamped at 0. -/
def get_days_rest (db : Db) (team_id : ℕ) (game_date : ℕ) : ℤ :=
  let candidates := rest_games db team_id game_date
  match (sort_by_date_desc (fun g => g.date) candidates).head? with
  | none => 3
  | some last_game => max 0 ((game_date : ℤ) - (last_game.date : ℤ))

/-! ## Feature builder, from create_feature_set in
src/backend/src/feature_engineering.py -/

/-- One training row, one team perspective of one game.  The is_home
and target columns are stored as the 0 or 1 integers the source
writes. -/
structure FeatureRow where
  game_id : ℕ
  team_id : ℕ
  opponent_id : ℕ
  is_home : ℤ
  target_did_win : ℤ
  target_win_margin : ℤ
  team_elo : ℝ
  opponent_elo : ℝ
  elo_diff : ℝ
  avg_pts_scored_l10 : ℚ
  avg_pts_allowed_l10 : ℚ
  avg_fg_pct_l10 : ℚ
  avg_tov_l10 : ℚ
  avg_plus_minus_l10 : ℚ
  avg_rebounds_l10 : ℚ
  avg_assists_l10 : ℚ
  opp_avg_pts_scored_l10 : ℚ
  opp_avg_pts_allowed_l10 : ℚ
  opp_avg_fg_pct_l10 : ℚ
  opp_avg_tov_l10 : ℚ
  opp_avg_plus_minus_l10 : ℚ
  h2h_win_pct : ℚ
  days_since_last_game : ℤ
  opponent_days_since_last_game : ℤ
  rest_advantage : ℤ
  season : ℤ
  date : ℕ

/-- Python or fallback on a pregame elo column: the source evaluates
(game.home_team_pregame_elo or ELO_INITIAL), which replaces a missing
value, and also a stored 0.0, by ELO_INITIAL. -/
noncomputable def elo_or_initial (x : Option ℝ) : ℝ :=
  match x with
  | none => ELO_INITIAL
  | some v => if v = 0 then ELO_INITIAL else v

/-- The home-perspective row of a completed game (lines 237 to 272). -/
noncomputable def mk_home_row (db : Db) (game : Game) : FeatureRow :=
  let home_won : ℤ := if game.away_score.getD 0 < game.home_score.getD 0 then 1 else 0
  let win_margin : ℤ := game.home_score.getD 0 - game.away_score.getD 0
  let home_elo := elo_or_initial game.home_team_pregame_elo
  let away_elo := elo_or_initial game.away_team_pregame_elo
  let home_rolling := get_rolling_averages db game.home_team_id game.date ROLLING_WINDOW
  let away_rolling := get_rolling_averages db game.away_team_id game.date ROLLING_WINDOW
  let h2h_home := get_h2h_win_pct db game.home_team_id game.away_team_id game.date
  let home_rest := get_days_rest db game.home_team_id game.date
  let away_rest := get_days_rest db game.away_team_id game.date
  { game_id := game.game_id
    team_id := game.home_team_id
    opponent_id := game.away_team_id
    is_home := 1
    target_did_win := home_won
    target_win_margin := win_margin
    team_elo := home_elo
    opponent_elo := away_elo
    elo_diff := home_elo - away_elo
    avg_pts_scored_l10 := home_rolling.avg_pts_scored
    avg_pts_allowed_l10 := home_rolling.avg_pts_allowed
    avg_fg_pct_l10 := home_rolling.avg_fg_pct
    avg_tov_l10 := home_rolling.avg_tov
    avg_plus_minus_l10 := home_rolling.avg_plus_minus
    avg_rebounds_l10 := home_rolling.avg_rebounds
    avg_assists_l10 := home_rolling.avg_assists
    opp_avg_pts_scored_l10 := away_rolling.avg_pts_scored
    opp_avg_pts_allowed_l10 := away_rolling.avg_pts_allowed
    opp_avg_fg_pct_l10 := away_rolling.avg_fg_pct
    opp_avg_tov_l10 := away_rolling.avg_tov
    opp_avg_plus_minus_l10 := away_rolling.avg_plus_minus
    h2h_win_pct := h2h_home
    days_since_last_game := home_rest
    opponent_days_since_last_game := away_rest
    rest_advantage := home_rest - away_rest
    season := game.season
    date := game.date }

/-- The away-perspective row of a completed game (lines 275 to 310),
written exactly as the source does: target 1 - home_won, margin
negated, elo and rest differences from the away perspective. -/
noncomputable def mk_away_row (db : Db) (game : Game) : FeatureRow :=
  let home_won : ℤ := if game.away_score.getD 0 < game.home_score.getD 0 then 1 else 0
  let win_margin : ℤ := game.home_score.getD 0 - game.away_score.getD 0
  let home_elo := elo_or_initial game.home_team_pregame_elo
  let away_elo := elo_or_initial game.away_team_pregame_elo
  let home_rolling := get_rolling_averages db game.home_team_id game.date ROLLING_WINDOW
  let away_rolling := get_rolling_averages db game.away_team_id game.date ROLLING_WINDOW
  let h2h_away := get_h2h_win_pct db game.away_team_id game.home_team_id game.date
  let home_rest := get_days_rest db game.home_team_id game.date
  let away_rest := get_days_rest db game.away_team_id game.date
  { game_id := game.game_id
    team_id := game.away_team_id
    opponent_id := game.home_team_id
    is_home := 0
    target_did_win := 1 - home_won
    target_win_margin := -win_margin
    team_elo := away_elo
    opponent_elo := home_elo
    elo_diff := away_elo - home_elo
    avg_pts_scored_l10 := away_rolling.avg_pts_scored
    avg_pts_allowed_l10 := away_rolling.avg_pts_allowed
    avg_fg_pct_l10 := away_rolling.avg_fg_pct
    avg_tov_l10 := away_rolling.avg_tov
    avg_plus_minus_l10 := away_rolling.avg_plus_minus
    avg_rebounds_l10 := away_rolling.avg_rebounds
    avg_assists_l10 := away_rolling.avg_assists
    opp_avg_pts_scored_l10 := home_rolling.avg_pts_scored
    opp_avg_pts_allowed_l10 := home_rolling.avg_pts_allowed
    opp_avg_fg_pct_l10 := home_rolling.avg_fg_pct
    opp_avg_tov_l10 := home_rolling.avg_tov
    opp_avg_plus_minus_l10 := home_rolling.avg_plus_minus
    h2h_win_pct := h2h_away
    days_since_last_game := away_rest
    opponent_days_since_last_game := home_rest
    rest_advantage := away_rest - home_rest
    season := game.season
    date := game.date }

/-- Python truthiness of the optional season filter: None skips the
filter, and so does a season value of 0. -/
def season_matches (season_filter : Option ℤ) (season : ℤ) : Bool :=
  match season_filter with
  | none => true
  | some s => if s = 0 then true else season == s

/-- The loop of create_feature_set: games missing either score are
skipped, every other game emits the home row then the away row. -/
noncomputable def feature_rows_loop (db : Db) : List Game → List FeatureRow
  | [] => []
  | g :: rest =>
    if g.home_score.isNone || g.away_score.isNone then feature_rows_loop db rest
    else mk_home_row db g :: mk_away_row db g :: feature_rows_loop db rest

/-- create_feature_set: completed games of the selected seasons in
date order, two rows per game. -/
noncomputable def create_feature_set (db : Db) (season_filter : Option ℤ) :
    List FeatureRow :=
  feature_rows_loop db
    (sort_by_date_asc (fun g => g.date)
      (db.games.filter fun g =>
        g.home_score.isSome && season_matches season_filter g.season))

/-! ## Backtest simulator, from run_profitability_simulation in
src/backend/src/backtesting.py -/

/-- One row of the per-bet ledger (the bets_placed dicts). -/
structure BetRecord where
  game_id : ℕ
  team_id : ℕ
  opponent_id : ℕ
  is_home : ℤ
  model_prob : ℚ
  implied_prob : ℚ
  edge : ℚ
  moneyline : ℤ
  result : String
  profit : ℚ
deriving DecidableEq

/-- Accumulator of the betting loop. -/
structure SimState where
  total_bets : ℕ
  total_won : ℕ
  total_profit : ℚ
  bets_placed : List BetRecord
deriving DecidableEq

/-- Result dict of run_profitability_simulation. -/
structure SimReport where
  total_bets : ℕ
  total_won : ℕ
  total_lost : ℕ
  win_rate : ℚ
  total_profit : ℚ
  roi : ℚ
  bets_placed : List BetRecord
deriving DecidableEq

/-- First odds row of a game: the odds_dict lookup preserves query
order and the loop takes the first quote. -/
def first_odds (odds_list : List Odds) (game_id : ℕ) : Option Odds :=
  odds_list.find? fun o => o.game_id == game_id

/-- Loop body of the betting loop (lines 113 to 170): skip a row with
no quote or a null moneyline for its perspective, bet exactly when
the edge exceeds the threshold, profit payout minus stake on a win
and minus the stake on a loss.  The predict argument stands for the
external classifier and scaler pipeline giving the win probability
of the row perspective. -/
def sim_step (predict : FeatureRow → ℚ) (odds_list : List Odds)
    (edge_threshold bet_amount : ℚ) (st : SimState) (row : FeatureRow) :
    SimState :=
  match first_odds odds_list row.game_id with
  | none => st
  | some odds =>
    match (if row.is_home ≠ 0 then odds.home_team_moneyline
           else odds.away_team_moneyline) with
    | none => st
    | some moneyline =>
      let implied_prob := moneyline_to_implied_prob moneyline
      let edge := predict row - implied_prob
      if edge > edge_threshold then
        if row.target_did_win = 1 then
          let payout := moneyline_to_payout moneyline bet_amount
          let profit := payout - bet_amount
          { total_bets := st.total_bets + 1
            total_won := st.total_won + 1
            total_profit := st.total_profit + profit
            bets_placed := st.bets_placed ++
              [⟨row.game_id, row.team_id, row.opponent_id, row.is_home,
                predict row, implied_prob, edge, moneyline, "WIN", profit⟩] }
        else
          let profit := -bet_amount
          { total_bets := st.total_bets + 1
            total_won := st.total_won
            total_profit := st.total_profit + profit
            bets_placed := st.bets_placed ++
              [⟨row.game_id, row.team_id, row.opponent_id, row.is_home,
                predict row, implied_prob, edge, moneyline, "LOSS", profit⟩] }
      else st

/-- run_profitability_simulation: filter the rows to the test season
(None when the season has no rows, as the source returns None), fold
the betting loop, then aggregate win rate and roi with the zero
defaults when no bet was placed. -/
def run_profitability_simulation (predict : FeatureRow → ℚ)
    (features : List FeatureRow) (odds_list : List Odds)
    (test_season : ℤ) (edge_threshold bet_amount : ℚ) : Option SimReport :=
  let test_df := features.filter fun r => r.season == test_season
  if test_df.isEmpty then none
  else
    let st := test_df.foldl
      (sim_step predict odds_list edge_threshold bet_amount) ⟨0, 0, 0, []⟩
    some { total_bets := st.total_bets
           total_won := st.total_won
           total_lost := st.total_bets - st.total_won
           win_rate := if 0 < st.total_bets
             then (st.total_won : ℚ) / (st.total_bets : ℚ) * 100 else 0
           total_profit := st.total_profit
           roi := if 0 < st.total_bets
             then st.total_profit / ((st.total_bets : ℚ) * bet_amount) * 100
             else 0
           bets_placed := st.bets_placed }

/-- Declarative description of the bet a row produces, if any: a
quote must exist, its moneyline for the row perspective must be
non-null, and the model edge over the implied probability must
strictly exceed the threshold; used to state claim C3 against the
loop. -/
def bet_of (predict : FeatureRow → ℚ) (odds_list : List Odds)
    (edge_threshold bet_amount : ℚ) (row : FeatureRow) : Option BetRecord :=
  match first_odds odds_list row.game_id with
  | none => none
  | some odds =>
    match (if row.is_home ≠ 0 then odds.home_team_moneyline
           else odds.away_team_moneyline) with
    | none => none
    | some moneyline =>
      let implied_prob := moneyline_to_implied_prob moneyline
      let edge := predict row - implied_prob
      if edge > edge_threshold then
        if row.target_did_win = 1 then
          some ⟨row.game_id, row.team_id, row.opponent_id, row.is_home,
            predict row, implied_prob, edge, moneyline, "WIN",
            moneyline_to_payout moneyline bet_amount - bet_amount⟩
        else
          some ⟨row.game_id, row.team_id, row.opponent_id, row.is_home,
            predict row, implied_prob, edge, moneyline, "LOSS", -bet_amount⟩
      else none

/-! ## Inference-time rating lookup, from get_current_elo in
src/backend/src/predict.py -/

/-- The query of get_current_elo (lines 59 to 62): the most recent
game of the team whose pregame elo is stamped. -/
def most_recent_rated_game (db : Db) (team_id : ℕ) : Option Game :=
  (sort_by_date_desc (fun g => g.date)
    (db.games.filter fun g =>
      ((g.home_team_id == team_id) || (g.away_team_id == team_id)) &&
      g.home_team_pregame_elo.isSome)).head?

/-- get_current_elo: the stamped pregame rating of the most recent
rated game of the team, nudged by plus 15 if the team won that game
and minus 15 otherwise (a tie also subtracts 15), left as is when the
game has no result, and ELO_INITIAL when the team has no rated
game. -/
noncomputable def get_current_elo (db : Db) (team_id : ℕ) : ℝ :=
  match most_recent_rated_game db team_id with
  | none => ELO_INITIAL
  | some recent_game =>
    let elo := if recent_game.home_team_id = team_id
      then recent_game.home_team_pregame_elo.getD ELO_INITIAL
      else recent_game.away_team_pregame_elo.getD ELO_INITIAL
    match recent_game.home_score, recent_game.away_score with
    | some hs, some as_ =>
      if (recent_game.home_team_id = team_id ∧ as_ < hs) ∨
         (recent_game.away_team_id = team_id ∧ hs < as_) then elo + 15
      else elo - 15
    | _, _ => elo

/-! ## Concrete backtest inputs for the synthetic three-row test -/

/-- Base feature row for the synthetic backtest rows. -/
noncomputable def base_row : FeatureRow :=
  { game_id := 0, team_id := 1, opponent_id := 2, is_home := 1,
    target_did_win := 1, target_win_margin := 5, team_elo := 1500,
    opponent_elo := 1500, elo_diff := 0,
    avg_pts_scored_l10 := 0, avg_pts_allowed_l10 := 0, avg_fg_pct_l10 := 0,
    avg_tov_l10 := 0, avg_plus_minus_l10 := 0, avg_rebounds_l10 := 0,
    avg_assists_l10 := 0, opp_avg_pts_scored_l10 := 0,
    opp_avg_pts_allowed_l10 := 0, opp_avg_fg_pct_l10 := 0,
    opp_avg_tov_l10 := 0, opp_avg_plus_minus_l10 := 0, h2h_win_pct := 0.5,
    days_since_last_game := 3, opponent_days_since_last_game := 3,
    rest_advantage := 0, season := 2024, date := 50 }

/-- Bet A: edge 0.05 over the threshold, moneyline -150, won. -/
noncomputable def bet_row_a : FeatureRow :=
  { base_row with game_id := 101, target_did_win := 1 }

/-- Bet B: edge 0.10, moneyline +120, lost. -/
noncomputable def bet_row_b : FeatureRow :=
  { base_row with game_id := 102, target_did_win := 0 }

/-- Row C: edge 0.01, below the threshold, no bet. -/
noncomputable def bet_row_c : FeatureRow :=
  { base_row with game_id := 103, target_did_win := 1 }

/-- Quotes for the three synthetic games. -/
def backtest_odds : List Odds :=
  [⟨101, some (-150), some 100⟩, ⟨102, some 120, none⟩,
   ⟨103, some 100, some 100⟩]

/-- Model win probabilities of the three rows, giving edges 0.05,
0.10 and 0.01 against the implied probabilities 0.6, 5/11 and 0.5. -/
noncomputable def backtest_predict : FeatureRow → ℚ := fun r =>
  if r.game_id = 101 then 13 / 20
  else if r.game_id = 102 then 61 / 110
  else 51 / 100

/-- Ledger entry produced by bet A. -/
def win_bet_a : BetRecord :=
  ⟨101, 1, 2, 1, 13 / 20, 3 / 5, 1 / 20, -150, "WIN", 200 / 3⟩

/-- Ledger entry produced by bet B. -/
def loss_bet_b : BetRecord :=
  ⟨102, 1, 2, 1, 61 / 110, 5 / 11, 1 / 10, 120, "LOSS", -100⟩

/-- Expected report of the synthetic three-row simulation. -/
def backtest_report : SimReport :=
  ⟨2, 1, 1, 50, -100 / 3, -50 / 3, [win_bet_a, loss_bet_b]⟩

/-- Final rating dict of the one-game pass over sample_game, used to
compare the inference-time lookup against the true post-update
rating. -/
noncomputable def c4_final_ratings : ℕ → Option ℝ := fun t =>
  if t = sample_game.away_team_id then
    some (ELO_INITIAL + ELO_K_FACTOR *
      ((if (90 : ℤ) < 100 then (0 : ℝ) else if (100 : ℤ) < 90 then 1 else 0.5) -
        (1 - expected_home_win ELO_INITIAL ELO_INITIAL)))
  else if t = sample_game.home_team_id then
    some (ELO_INITIAL + ELO_K_FACTOR *
      ((if (90 : ℤ) < 100 then (1 : ℝ) else if (100 : ℤ) < 90 then 0 else 0.5) -
        expected_home_win ELO_INITIAL ELO_INITIAL))
  else init_ratings [1, 2] t

/-! ### Helper lemmas about the rating pass -/

theorem process_games_nil (r : ℕ → Option ℝ) :
    process_games r [] = some ([], r) := rfl

theorem process_games_cons (r : ℕ → Option ℝ) (g : Game) (rest : List Game) :
    process_games r (g :: rest) =
      (process_game r g).bind fun p =>
        (process_games p.2 rest).map fun q => (p.1 :: q.1, q.2) := rfl

theorem process_game_no_result (ratings : ℕ → Option ℝ) (g : Game)
    (rh ra : ℝ) (hh : ratings g.home_team_id = some rh)
    (ha : ratings g.away_team_id = some ra)
    (hres : g.home_score = none ∨ g.away_score = none) :
    process_game ratings g = some (stamp_pregame g rh ra, ratings) := by
  unfold process_game
  rw [hh, ha]
  rcases hres with h | h
  · rw [h]
  · rw [h]
    cases g.home_score <;> rfl

theorem process_game_result (ratings : ℕ → Option ℝ) (g : Game)
    (rh ra : ℝ) (hs as_ : ℤ)
    (hh : ratings g.home_team_id = some rh)
    (ha : ratings g.away_team_id = some ra)
    (hhs : g.home_score = some hs) (has : g.away_score = some as_) :
    process_game ratings g = some (stamp_pregame g rh ra, fun t =>
      if t = g.away_team_id then
        some (ra + ELO_K_FACTOR *
          ((if as_ < hs then (0 : ℝ) else if hs < as_ then 1 else 0.5) -
            (1 - expected_home_win rh ra)))
      else if t = g.home_team_id then
        some (rh + ELO_K_FACTOR *
          ((if as_ < hs then (1 : ℝ) else if hs < as_ then 0 else 0.5) -
            expected_home_win rh ra))
      else ratings t) := by
  unfold process_game
  rw [hh, ha, hhs, has]

theorem process_game_none_iff (ratings : ℕ → Option ℝ) (g : Game) :
    process_game ratings g = none ↔
      ratings g.home_team_id = none ∨ ratings g.away_team_id = none := by
  unfold process_game
  cases hh : ratings g.home_team_id with
  | none => simp
  | some rh =>
    cases ha : ratings g.away_team_id with
    | none => simp
    | some ra =>
      cases g.home_score <;> cases g.away_score <;> simp

/-- Case analysis on the step through its two equation lemmas: either
both scores are present and the step is the full update, or the step
leaves the dict unchanged. -/
theorem process_game_cases (ratings : ℕ → Option ℝ) (g : Game)
    (g2 : Game) (r2 : ℕ → Option ℝ)
    (h : process_game ratings g = some (g2, r2)) :
    ∃ rh ra, ratings g.home_team_id = some rh ∧
      ratings g.away_team_id = some ra ∧ g2 = stamp_pregame g rh ra ∧
      ((∃ hs as_, g.home_score = some hs ∧ g.away_score = some as_ ∧
        r2 = fun t =>
          if t = g.away_team_id then
            some (ra + ELO_K_FACTOR *
              ((if as_ < hs then (0 : ℝ) else if hs < as_ then 1 else 0.5) -
                (1 - expected_home_win rh ra)))
          else if t = g.home_team_id then
            some (rh + ELO_K_FACTOR *
              ((if as_ < hs then (1 : ℝ) else if hs < as_ then 0 else 0.5) -
                expected_home_win rh ra))
          else ratings t) ∨
        ((g.home_score = none ∨ g.away_score = none) ∧ r2 = ratings)) := by
  cases hh : ratings g.home_team_id with
  | none =>
    rw [(process_game_none_iff ratings g).2 (Or.inl hh)] at h
    exact absurd h (by simp)
  | some rh =>
    cases ha : ratings g.away_team_id with
    | none =>
      rw [(process_game_none_iff ratings g).2 (Or.inr ha)] at h
      exact absurd h (by simp)
    | some ra =>
      refine ⟨rh, ra, rfl, rfl, ?_⟩
      cases hhs : g.home_score with
      | none =>
        rw [process_game_no_result ratings g rh ra hh ha (Or.inl hhs)] at h
        have h2 := Option.some.inj h
        have hfst : stamp_pregame g rh ra = g2 := congrArg Prod.fst h2
        have hsnd : ratings = r2 := congrArg Prod.snd h2
        exact ⟨hfst.symm, Or.inr ⟨Or.inl rfl, hsnd.symm⟩⟩
      | some hs =>
        cases has : g.away_score with
        | none =>
          rw [process_game_no_result ratings g rh ra hh ha (Or.inr has)] at h
          have h2 := Option.some.inj h
          have hfst : stamp_pregame g rh ra = g2 := congrArg Prod.fst h2
          have hsnd : ratings = r2 := congrArg Prod.snd h2
          exact ⟨hfst.symm, Or.inr ⟨Or.inr rfl, hsnd.symm⟩⟩
        | some as_ =>
          rw [process_game_result ratings g rh ra hs as_ hh ha hhs has] at h
          have h2 := Option.some.inj h
          have hfst : stamp_pregame g rh ra = g2 := congrArg Prod.fst h2
          have hsnd : (fun t =>
            if t = g.away_team_id then
              some (ra + ELO_K_FACTOR *
                ((if as_ < hs then (0 : ℝ) else if hs < as_ then 1 else 0.5) -
                  (1 - expected_home_win rh ra)))
            else if t = g.home_team_id then
              some (rh + ELO_K_FACTOR *
                ((if as_ < hs then (1 : ℝ) else if hs < as_ then 0 else 0.5) -
                  expected_home_win rh ra))
            else ratings t) = r2 := congrArg Prod.snd h2
          exact ⟨hfst.symm, Or.inl ⟨hs, as_, rfl, rfl, hsnd.symm⟩⟩

/-- The step only rewrites the two keys of the processed game. -/
theorem process_game_untouched (ratings : ℕ → Option ℝ) (g : Game)
    (g2 : Game) (r2 : ℕ → Option ℝ)
    (h : process_game ratings g = some (g2, r2)) (t : ℕ)
    (hth : t ≠ g.home_team_id) (hta : t ≠ g.away_team_id) :
    r2 t = ratings t := by
  obtain ⟨rh, ra, hh, ha, hg2, hcase⟩ := process_game_cases ratings g g2 r2 h
  rcases hcase with ⟨hs, as_, hhs, has, hr2⟩ | ⟨hres, hr2⟩
  · rw [hr2]
    simp [hth, hta]
  · rw [hr2]

/-- The step preserves presence of every key in the rating dict. -/
theorem process_game_isSome (ratings : ℕ → Option ℝ) (g : Game)
    (g2 : Game) (r2 : ℕ → Option ℝ)
    (h : process_game ratings g = some (g2, r2)) (t : ℕ) :
    (r2 t).isSome = (ratings t).isSome := by
  obtain ⟨rh, ra, hh, ha, hg2, hcase⟩ := process_game_cases ratings g g2 r2 h
  rcases hcase with ⟨hs, as_, hhs, has, hr2⟩ | ⟨hres, hr2⟩
  · rw [hr2]
    by_cases h3 : t = g.away_team_id
    · subst h3
      simp [ha]
    · by_cases h4 : t = g.home_team_id
      · subst h4
        simp [h3, hh]
      · simp [h3, h4]
  · rw [hr2]

/-- Composition of the loop over an appended list. -/
theorem process_games_append (r : ℕ → Option ℝ) (l₁ l₂ : List Game) :
    process_games r (l₁ ++ l₂) =
      (process_games r l₁).bind fun p =>
        (process_games p.2 l₂).map fun q => (p.1 ++ q.1, q.2) := by
  induction l₁ generalizing r with
  | nil =>
    cases h : process_games r l₂ with
    | none => simp [process_games, h]
    | some p => simp [process_games, h]
  | cons g rest ih =>
    show process_games r (g :: (rest ++ l₂)) = _
    rw [process_games, process_games]
    cases hg : process_game r g with
    | none => simp
    | some p =>
      simp only [Option.some_bind]
      rw [ih p.2]
      cases h1 : process_games p.2 rest with
      | none => simp
      | some q =>
        cases h2 : process_games q.2 l₂ with
        | none => simp [h2]
        | some q2 => simp [h2]

/-- If every team of every game is present in the rating dict, the
loop never raises. -/
theorem process_games_total (games : List Game) (r : ℕ → Option ℝ)
    (hreg : ∀ g ∈ games, (r g.home_team_id).isSome ∧ (r g.away_team_id).isSome) :
    ∃ gs m, process_games r games = some (gs, m) ∧
      ∀ t, (m t).isSome = (r t).isSome := by
  induction games generalizing r with
  | nil => exact ⟨[], r, rfl, fun t => rfl⟩
  | cons g rest ih =>
    obtain ⟨hgh, hga⟩ := hreg g (List.mem_cons_self g rest)
    cases hg : process_game r g with
    | none =>
      rw [process_game_none_iff] at hg
      rcases hg with h | h <;> simp [h] at hgh hga
    | some p =>
      obtain ⟨g2, r2⟩ := p
      have hdom := process_game_isSome r g g2 r2 hg
      obtain ⟨gs, m, hrest, hm⟩ := ih r2 (fun g3 hg3 => by
        rw [hdom, hdom]; exact hreg g3 (List.mem_cons_of_mem g hg3))
      refine ⟨g2 :: gs, m, ?_, fun t => (hm t).trans (hdom t)⟩
      rw [process_games, hg, Option.some_bind, hrest, Option.map_some']

/-- A team that appears in no processed game keeps its rating. -/
theorem process_games_untouched (games : List Game) (r : ℕ → Option ℝ)
    (gs : List Game) (m : ℕ → Option ℝ)
    (h : process_games r games = some (gs, m)) (t : ℕ)
    (ht : ∀ g ∈ games, g.home_team_id ≠ t ∧ g.away_team_id ≠ t) :
    m t = r t := by
  induction games generalizing r gs with
  | nil =>
    rw [process_games] at h
    have h2 := Option.some.inj h
    have hm : r = m := congrArg Prod.snd h2
    rw [← hm]
  | cons g rest ih =>
    rw [process_games] at h
    cases hg : process_game r g with
    | none => rw [hg] at h; exact absurd h (by simp)
    | some p =>
      obtain ⟨g2, r2⟩ := p
      rw [hg, Option.some_bind] at h
      cases hrest : process_games r2 rest with
      | none => rw [hrest] at h; exact absurd h (by simp)
      | some q =>
        obtain ⟨gs2, m2⟩ := q
        rw [hrest, Option.map_some'] at h
        have h2 := Option.some.inj h
        have hm : m2 = m := congrArg Prod.snd h2
        obtain ⟨h1t, h2t⟩ := ht g (List.mem_cons_self g rest)
        have step := process_game_untouched r g g2 r2 hg t
          (fun hc => h1t hc.symm) (fun hc => h2t hc.symm)
        rw [hm] at hrest
        have hrec := ih r2 gs2 hrest
          (fun g3 hg3 => ht g3 (List.mem_cons_of_mem g hg3))
        exact hrec.trans step

/-- The loop emits exactly one stamped game per input game. -/
theorem process_games_length (games : List Game) (r : ℕ → Option ℝ)
    (gs : List Game) (m : ℕ → Option ℝ)
    (h : process_games r games = some (gs, m)) : gs.length = games.length := by
  induction games generalizing r gs with
  | nil =>
    rw [process_games_nil] at h
    have h2 := Option.some.inj h
    have hgs : ([] : List Game) = gs := congrArg Prod.fst h2
    rw [← hgs]
  | cons g rest ih =>
    rw [process_games_cons] at h
    cases hg : process_game r g with
    | none => rw [hg] at h; exact absurd h (by simp)
    | some p =>
      obtain ⟨g2, r2⟩ := p
      rw [hg, Option.some_bind] at h
      cases hrest : process_games r2 rest with
      | none => rw [hrest] at h; exact absurd h (by simp)
      | some q =>
        obtain ⟨gs2, m2⟩ := q
        rw [hrest, Option.map_some'] at h
        have h2 := Option.some.inj h
        have hgs : g2 :: gs2 = gs := congrArg Prod.fst h2
        have hm : m2 = m := congrArg Prod.snd h2
        rw [hm] at hrest
        rw [← hgs]
        simp [ih r2 gs2 hrest]

/-- Pointwise update of a rating dict shifts the team sum by the
difference at the updated key. -/
theorem sum_ratings_update (teams : List ℕ) (hnd : teams.Nodup)
    (m : ℕ → Option ℝ) (t : ℕ) (ht : t ∈ teams) (v : ℝ) :
    sum_ratings teams (fun u => if u = t then some v else m u) =
      sum_ratings teams m - (m t).getD 0 + v := by
  induction teams with
  | nil => cases ht
  | cons a rest ih =>
    rw [List.nodup_cons] at hnd
    rcases List.mem_cons.1 ht with h | h
    · subst h
      have htail : rest.map (fun u => ((if u = t then some v else m u)).getD 0)
          = rest.map fun u => (m u).getD 0 := by
        apply List.map_congr_left
        intro u hu
        have hut : u ≠ t := fun hc => hnd.1 (hc ▸ hu)
        rw [if_neg hut]
      simp only [sum_ratings, List.map_cons, List.sum_cons, htail]
      simp only [eq_self_iff_true, if_true, Option.getD_some]
      ring
    · have hat : a ≠ t := fun hc => hnd.1 (by rw [hc]; exact h)
      have ihr := ih hnd.2 h
      simp only [sum_ratings] at ihr
      simp only [sum_ratings, List.map_cons, List.sum_cons]
      rw [if_neg hat, ihr]
      ring

/-- One step of the rating pass preserves the sum of all registered
ratings, provided the two sides of the game are distinct teams. -/
theorem process_game_sum (teams : List ℕ) (hnd : teams.Nodup)
    (r : ℕ → Option ℝ) (g : Game) (g2 : Game) (r2 : ℕ → Option ℝ)
    (h : process_game r g = some (g2, r2))
    (hsep : g.home_team_id ≠ g.away_team_id)
    (hht : g.home_team_id ∈ teams) (hat : g.away_team_id ∈ teams) :
    sum_ratings teams r2 = sum_ratings teams r := by
  obtain ⟨rh, ra, hrh, hra, _, hcase⟩ := process_game_cases r g g2 r2 h
  rcases hcase with ⟨hs, as_, hhs, has, hr2⟩ | ⟨_, hr2⟩
  · set eh := expected_home_win rh ra with heh
    set ah : ℝ := if as_ < hs then 1 else if hs < as_ then 0 else 0.5 with hah
    set aa : ℝ := if as_ < hs then 0 else if hs < as_ then 1 else 0.5 with haa
    have hsum1 : ah + aa = 1 := by
      rw [hah, haa]
      by_cases h1 : as_ < hs
      · simp [h1]
      · by_cases h2 : hs < as_
        · simp [h1, h2]
        · simp [h1, h2]
          norm_num
    have hne2 : g.away_team_id ≠ g.home_team_id := fun hc => hsep hc.symm
    have hsplit : r2 = fun u =>
        if u = g.away_team_id then some (ra + ELO_K_FACTOR * (aa - (1 - eh)))
        else (fun w => if w = g.home_team_id
          then some (rh + ELO_K_FACTOR * (ah - eh)) else r w) u := by
      rw [hr2]
    rw [hsplit,
      sum_ratings_update teams hnd _ g.away_team_id hat _,
      sum_ratings_update teams hnd r g.home_team_id hht _]
    rw [if_neg hne2, hrh, hra]
    simp only [Option.getD_some]
    have haa2 : aa - (1 - eh) = -(ah - eh) := by
      have h3 : aa = 1 - ah := by rw [← hsum1]; ring
      rw [h3]
      ring
    rw [haa2]
    ring
  · rw [hr2]

/-- The whole pass preserves the sum of all registered ratings. -/
theorem process_games_sum (games : List Game) (teams : List ℕ)
    (hnd : teams.Nodup) (r : ℕ → Option ℝ)
    (gs : List Game) (m : ℕ → Option ℝ)
    (h : process_games r games = some (gs, m))
    (hsep : ∀ g ∈ games, g.home_team_id ≠ g.away_team_id)
    (hreg : ∀ g ∈ games, g.home_team_id ∈ teams ∧ g.away_team_id ∈ teams) :
    sum_ratings teams m = sum_ratings teams r := by
  induction games generalizing r gs with
  | nil =>
    rw [process_games_nil] at h
    have h2 := Option.some.inj h
    have hm : r = m := congrArg Prod.snd h2
    rw [← hm]
  | cons g rest ih =>
    rw [process_games_cons] at h
    cases hg : process_game r g with
    | none => rw [hg] at h; exact absurd h (by simp)
    | some p =>
      obtain ⟨g2, r2⟩ := p
      rw [hg, Option.some_bind] at h
      cases hrest : process_games r2 rest with
      | none => rw [hrest] at h; exact absurd h (by simp)
      | some q =>
        obtain ⟨gs2, m2⟩ := q
        rw [hrest, Option.map_some'] at h
        have h2 := Option.some.inj h
        have hm : m2 = m := congrArg Prod.snd h2
        rw [hm] at hrest
        have hstep := process_game_sum teams hnd r g g2 r2 hg
          (hsep g (List.mem_cons_self g rest))
          (hreg g (List.mem_cons_self g rest)).1
          (hreg g (List.mem_cons_self g rest)).2
        have hrec := ih r2 gs2 hrest
          (fun g3 hg3 => hsep g3 (List.mem_cons_of_mem g hg3))
          (fun g3 hg3 => hreg g3 (List.mem_cons_of_mem g hg3))
        exact hrec.trans hstep

/-- C1: every game the rating pass processes is stamped with the
current ratings of its two teams unconditionally, even with no
result; when a result is recorded the expected home win probability
is the logistic formula with the home-advantage offset added to the
home rating, the actual outcome scores are 1 and 0 for a decisive
result and 0.5 each for a tie, and each rating moves by K times
actual minus expected, computed independently per side. -/
theorem C1_rating_update (ratings : ℕ → Option ℝ) (g : Game) (rh ra : ℝ)
    (hh : ratings g.home_team_id = some rh)
    (ha : ratings g.away_team_id = some ra) :
    (∃ r2, process_game ratings g =
      some ({ g with home_team_pregame_elo := some rh,
                     away_team_pregame_elo := some ra }, r2)) ∧
    (∀ hs as_ : ℤ, g.home_score = some hs → g.away_score = some as_ →
      g.home_team_id ≠ g.away_team_id →
      ∃ r2, process_game ratings g =
        some ({ g with home_team_pregame_elo := some rh,
                       away_team_pregame_elo := some ra }, r2) ∧
        r2 g.home_team_id = some (rh + ELO_K_FACTOR *
          ((if hs > as_ then (1 : ℝ) else if hs < as_ then 0 else 0.5) -
            1 / (1 + (10 : ℝ) ^ ((ra - (rh + ELO_HOME_ADVANTAGE)) / 400)))) ∧
        r2 g.away_team_id = some (ra + ELO_K_FACTOR *
          ((if hs > as_ then (0 : ℝ) else if hs < as_ then 1 else 0.5) -
            (1 - 1 / (1 + (10 : ℝ) ^ ((ra - (rh + ELO_HOME_ADVANTAGE)) / 400)))))) := by
  constructor
  · have hcase : (g.home_score = none ∨ g.away_score = none) ∨
        ∃ hs as_ : ℤ, g.home_score = some hs ∧ g.away_score = some as_ := by
      rcases hh1 : g.home_score with _ | hs
      · exact Or.inl (Or.inl rfl)
      · rcases ha1 : g.away_score with _ | as_
        · exact Or.inl (Or.inr rfl)
        · exact Or.inr ⟨hs, as_, rfl, rfl⟩
    rcases hcase with hres | ⟨hs, as_, hhs, has⟩
    · exact ⟨ratings, process_game_no_result ratings g rh ra hh ha hres⟩
    · exact ⟨_, process_game_result ratings g rh ra hs as_ hh ha hhs has⟩
  · intro hs as_ hhs has hne
    rw [process_game_result ratings g rh ra hs as_ hh ha hhs has]
    refine ⟨_, rfl, ?_, ?_⟩
    · rw [if_neg hne, if_pos rfl]
      rfl
    · rw [if_pos rfl]
      rfl

/-- Witness for C1 at a concrete rating dict and game. -/
theorem C1_rating_update_witness :
    init_ratings [1, 2] sample_game.home_team_id = some ELO_INITIAL ∧
    ∃ r2, process_game (init_ratings [1, 2]) sample_game =
      some ({ sample_game with home_team_pregame_elo := some ELO_INITIAL,
                               away_team_pregame_elo := some ELO_INITIAL }, r2) := by
  have hh : init_ratings [1, 2] sample_game.home_team_id = some ELO_INITIAL := by
    simp [init_ratings, sample_game]
  have ha : init_ratings [1, 2] sample_game.away_team_id = some ELO_INITIAL := by
    simp [init_ratings, sample_game]
  exact ⟨hh, (C1_rating_update (init_ratings [1, 2]) sample_game
    ELO_INITIAL ELO_INITIAL hh ha).1⟩

/-- C5 counterexample: with an empty teams table, the rating pass
over a single completed game raises KeyError (returns none), so the
rating pass is not total regardless of which teams are registered. -/
theorem C5_counterexample :
    calculate_elo_ratings [] [sample_game] = none := by
  rw [calculate_elo_ratings, process_games_cons,
    (process_game_none_iff _ _).2 (Or.inl (by simp [init_ratings]))]
  rfl

/-- C5 amended: provided every team appearing in the log is present
in the teams table, the rating pass never raises, and a team that has
not appeared in any earlier game is still rated ELO_INITIAL when its
first game is processed, which is stamped into that game. -/
theorem C5_default_initial_rating (teams : List ℕ) (l₁ l₂ : List Game)
    (g : Game) (t : ℕ)
    (hreg : ∀ g2 ∈ l₁ ++ g :: l₂,
      g2.home_team_id ∈ teams ∧ g2.away_team_id ∈ teams)
    (hside : t = g.home_team_id ∨ t = g.away_team_id)
    (hfirst : ∀ g2 ∈ l₁, g2.home_team_id ≠ t ∧ g2.away_team_id ≠ t) :
    ∃ a m₁ sg b m₂,
      calculate_elo_ratings teams (l₁ ++ g :: l₂) = some (a ++ sg :: b, m₂) ∧
      process_games (init_ratings teams) l₁ = some (a, m₁) ∧
      m₁ t = some ELO_INITIAL ∧
      (t = g.home_team_id → sg.home_team_pregame_elo = some ELO_INITIAL) ∧
      (t = g.away_team_id → sg.away_team_pregame_elo = some ELO_INITIAL) := by
  have hisSome : ∀ x ∈ teams, (init_ratings teams x).isSome := fun x hx => by
    simp [init_ratings, hx]
  obtain ⟨a, m₁, h₁, hdom₁⟩ := process_games_total l₁ (init_ratings teams)
    (fun g2 hg2 => by
      obtain ⟨hh, ha⟩ := hreg g2 (List.mem_append_left _ hg2)
      exact ⟨hisSome _ hh, hisSome _ ha⟩)
  have hgmem : g ∈ l₁ ++ g :: l₂ :=
    List.mem_append_right _ (List.mem_cons_self g l₂)
  have ht_teams : t ∈ teams := by
    obtain ⟨hh, ha⟩ := hreg g hgmem
    rcases hside with h | h
    · rw [h]; exact hh
    · rw [h]; exact ha
  have hm₁t : m₁ t = some ELO_INITIAL := by
    rw [process_games_untouched l₁ (init_ratings teams) a m₁ h₁ t hfirst]
    simp [init_ratings, ht_teams]
  have hgh : (m₁ g.home_team_id).isSome := by
    rw [hdom₁]
    exact hisSome _ (hreg g hgmem).1
  have hga : (m₁ g.away_team_id).isSome := by
    rw [hdom₁]
    exact hisSome _ (hreg g hgmem).2
  cases hstep : process_game m₁ g with
  | none =>
    rw [process_game_none_iff] at hstep
    rcases hstep with h | h
    · rw [h] at hgh; cases hgh
    · rw [h] at hga; cases hga
  | some p =>
    obtain ⟨sg, r2⟩ := p
    obtain ⟨rh2, ra2, hh2, ha2, hsg, _⟩ := process_game_cases m₁ g sg r2 hstep
    obtain ⟨b, m₂, h₂, _⟩ := process_games_total l₂ r2 (fun g3 hg3 => by
      rw [process_game_isSome m₁ g sg r2 hstep, hdom₁,
        process_game_isSome m₁ g sg r2 hstep, hdom₁]
      obtain ⟨hh, ha⟩ := hreg g3
        (List.mem_append_right _ (List.mem_cons_of_mem g hg3))
      exact ⟨hisSome _ hh, hisSome _ ha⟩)
    refine ⟨a, m₁, sg, b, m₂, ?_, h₁, hm₁t, ?_, ?_⟩
    · rw [calculate_elo_ratings, process_games_append, h₁, Option.some_bind,
        process_games_cons, hstep, Option.some_bind, h₂, Option.map_some',
        Option.map_some']
    · intro hth
      rw [← hth] at hh2
      have h5 : some ELO_INITIAL = some rh2 := hm₁t.symm.trans hh2
      rw [hsg]
      show some rh2 = some ELO_INITIAL
      exact congrArg some (Option.some.inj h5).symm
    · intro hta
      rw [← hta] at ha2
      have h5 : some ELO_INITIAL = some ra2 := hm₁t.symm.trans ha2
      rw [hsg]
      show some ra2 = some ELO_INITIAL
      exact congrArg some (Option.some.inj h5).symm

/-- Witness for the amended C5 on a concrete log: one game, both
teams registered, no earlier games. -/
theorem C5_default_initial_rating_witness :
    ∃ a m₁ sg b m₂,
      calculate_elo_ratings [1, 2] ([] ++ sample_game :: []) =
        some (a ++ sg :: b, m₂) ∧
      process_games (init_ratings [1, 2]) [] = some (a, m₁) ∧
      m₁ 1 = some ELO_INITIAL ∧
      (1 = sample_game.home_team_id →
        sg.home_team_pregame_elo = some ELO_INITIAL) ∧
      (1 = sample_game.away_team_id →
        sg.away_team_pregame_elo = some ELO_INITIAL) :=
  C5_default_initial_rating [1, 2] [] [] sample_game 1
    (by intro g2 hg2; simp [sample_game] at hg2; simp [hg2, sample_game])
    (Or.inl (by simp [sample_game]))
    (by intro g2 hg2; cases hg2)

/-- C6: a game with no recorded result leaves the rating state of
both participants unchanged, and inserting a scheduled game anywhere
into the ordered sequence changes neither the stamped pregame ratings
of any other game nor the final rating dict. -/
theorem C6_scheduled_game_frame (teams : List ℕ) (l₁ l₂ : List Game)
    (g : Game)
    (hreg : ∀ g2 ∈ l₁ ++ g :: l₂,
      g2.home_team_id ∈ teams ∧ g2.away_team_id ∈ teams)
    (hnores : g.home_score = none ∨ g.away_score = none) :
    (∀ r rh ra, r g.home_team_id = some rh → r g.away_team_id = some ra →
      process_game r g = some (stamp_pregame g rh ra, r)) ∧
    ∃ a b m sg,
      calculate_elo_ratings teams (l₁ ++ l₂) = some (a ++ b, m) ∧
      calculate_elo_ratings teams (l₁ ++ g :: l₂) = some (a ++ sg :: b, m) ∧
      a.length = l₁.length := by
  refine ⟨fun r rh ra hh ha => process_game_no_result r g rh ra hh ha hnores, ?_⟩
  have hisSome : ∀ x ∈ teams, (init_ratings teams x).isSome := fun x hx => by
    simp [init_ratings, hx]
  obtain ⟨a, m₁, h₁, hdom₁⟩ := process_games_total l₁ (init_ratings teams)
    (fun g2 hg2 => by
      obtain ⟨hh, ha⟩ := hreg g2 (List.mem_append_left _ hg2)
      exact ⟨hisSome _ hh, hisSome _ ha⟩)
  have hgmem : g ∈ l₁ ++ g :: l₂ :=
    List.mem_append_right _ (List.mem_cons_self g l₂)
  have hgh : (m₁ g.home_team_id).isSome := by
    rw [hdom₁]; exact hisSome _ (hreg g hgmem).1
  have hga : (m₁ g.away_team_id).isSome := by
    rw [hdom₁]; exact hisSome _ (hreg g hgmem).2
  obtain ⟨rh, hrh⟩ := Option.isSome_iff_exists.1 hgh
  obtain ⟨ra, hra⟩ := Option.isSome_iff_exists.1 hga
  have hstep := process_game_no_result m₁ g rh ra hrh hra hnores
  obtain ⟨b, m₂, h₂, _⟩ := process_games_total l₂ m₁ (fun g3 hg3 => by
    rw [hdom₁, hdom₁]
    obtain ⟨hh, ha⟩ := hreg g3
      (List.mem_append_right _ (List.mem_cons_of_mem g hg3))
    exact ⟨hisSome _ hh, hisSome _ ha⟩)
  refine ⟨a, b, m₂, stamp_pregame g rh ra, ?_, ?_,
    process_games_length l₁ (init_ratings teams) a m₁ h₁⟩
  · rw [calculate_elo_ratings, process_games_append, h₁, Option.some_bind,
      h₂, Option.map_some']
  · rw [calculate_elo_ratings, process_games_append, h₁, Option.some_bind,
      process_games_cons, hstep, Option.some_bind, h₂, Option.map_some',
      Option.map_some']

/-- Witness for C6: inserting a scheduled game into a one-game log. -/
theorem C6_scheduled_game_frame_witness :
    (∀ r rh ra,
      r scheduled_game.home_team_id = some rh →
      r scheduled_game.away_team_id = some ra →
      process_game r scheduled_game =
        some (stamp_pregame scheduled_game rh ra, r)) ∧
    ∃ a b m sg,
      calculate_elo_ratings [1, 2] ([sample_game] ++ []) = some (a ++ b, m) ∧
      calculate_elo_ratings [1, 2] ([sample_game] ++ scheduled_game :: []) =
        some (a ++ sg :: b, m) ∧
      a.length = [sample_game].length :=
  C6_scheduled_game_frame [1, 2] [sample_game] [] scheduled_game
    (by
      intro g2 hg2
      simp [sample_game, scheduled_game] at hg2
      rcases hg2 with h | h <;> simp [h, sample_game, scheduled_game])
    (Or.inl rfl)

/-- C10: the home and away rating deltas of a game with a result are
exactly equal and opposite even with a nonzero home advantage, and
the sum of all registered ratings is invariant across the whole
rating pass. -/
theorem C10_zero_sum (teams : List ℕ) (games : List Game)
    (hnd : teams.Nodup)
    (hsep : ∀ g ∈ games, g.home_team_id ≠ g.away_team_id)
    (hreg : ∀ g ∈ games, g.home_team_id ∈ teams ∧ g.away_team_id ∈ teams) :
    (∀ (r : ℕ → Option ℝ) (g : Game) (g2 : Game) (r2 : ℕ → Option ℝ)
      (rh ra rh2 ra2 : ℝ),
      process_game r g = some (g2, r2) →
      g.home_team_id ≠ g.away_team_id →
      r g.home_team_id = some rh → r g.away_team_id = some ra →
      r2 g.home_team_id = some rh2 → r2 g.away_team_id = some ra2 →
      rh2 - rh = -(ra2 - ra)) ∧
    ∀ gs m, calculate_elo_ratings teams games = some (gs, m) →
      sum_ratings teams m = sum_ratings teams (init_ratings teams) := by
  constructor
  · intro r g g2 r2 rh ra rh2 ra2 h hne hrh hra hrh2 hra2
    obtain ⟨rh0, ra0, hrh0, hra0, _, hcase⟩ := process_game_cases r g g2 r2 h
    have hrh0e : rh0 = rh := Option.some.inj (hrh0.symm.trans hrh)
    have hra0e : ra0 = ra := Option.some.inj (hra0.symm.trans hra)
    subst hrh0e
    subst hra0e
    rcases hcase with ⟨hs, as_, hhs, has, hr2⟩ | ⟨_, hr2⟩
    · rw [hr2] at hrh2 hra2
      simp only [hne, eq_self_iff_true, if_true, if_false,
        Option.some.injEq] at hrh2 hra2
      rw [← hrh2, ← hra2]
      by_cases h1 : as_ < hs
      · simp only [if_pos h1]
        ring
      · by_cases h2 : hs < as_
        · simp only [if_neg h1, if_pos h2]
          ring
        · simp only [if_neg h1, if_neg h2]
          ring
    · rw [hr2] at hrh2 hra2
      have e1 := Option.some.inj (hrh.symm.trans hrh2)
      have e2 := Option.some.inj (hra.symm.trans hra2)
      rw [← e1, ← e2]
      ring
  · intro gs m h
    exact process_games_sum games teams hnd (init_ratings teams) gs m h
      hsep hreg

/-- Witness for C10 on a concrete registered log. -/
theorem C10_zero_sum_witness :
    (1 : ℕ) ≠ 2 ∧
    ∀ gs m, calculate_elo_ratings [1, 2] [sample_game] = some (gs, m) →
      sum_ratings [1, 2] m = sum_ratings [1, 2] (init_ratings [1, 2]) := by
  refine ⟨by decide, ?_⟩
  exact (C10_zero_sum [1, 2] [sample_game] (by decide)
    (by intro g hg; simp [sample_game] at hg; simp [hg, sample_game])
    (by intro g hg; simp [sample_game] at hg; simp [hg, sample_game])).2

/-- C8: odds conversion follows the documented formulas, positive and
negative branch, payout includes the stake, and the four concrete
round-trip values hold, the fractional one within 0.01. -/
theorem C8_odds_conversion :
    (∀ m : ℤ, 0 < m →
      moneyline_to_implied_prob m = 100 / ((m : ℚ) + 100) ∧
      ∀ s : ℚ, moneyline_to_payout m s = s * (1 + (m : ℚ) / 100)) ∧
    (∀ m : ℤ, m < 0 →
      moneyline_to_implied_prob m = (m.natAbs : ℚ) / ((m.natAbs : ℚ) + 100) ∧
      ∀ s : ℚ, moneyline_to_payout m s = s * (1 + 100 / (m.natAbs : ℚ))) ∧
    moneyline_to_implied_prob 150 = 2 / 5 ∧
    moneyline_to_implied_prob (-150) = 3 / 5 ∧
    moneyline_to_payout 150 100 = 250 ∧
    moneyline_to_payout (-150) 100 = 500 / 3 ∧
    |moneyline_to_payout (-150) 100 - 16667 / 100| ≤ 1 / 100 := by
  refine ⟨?_, ?_,
    by norm_num [moneyline_to_implied_prob],
    by norm_num [moneyline_to_implied_prob],
    by norm_num [moneyline_to_payout],
    by norm_num [moneyline_to_payout],
    by norm_num [moneyline_to_payout, abs_le]⟩
  · intro m hm
    constructor
    · simp [moneyline_to_implied_prob, hm]
    · intro s
      simp [moneyline_to_payout, hm]
  · intro m hm
    have hnot : ¬ (0 < m) := by omega
    constructor
    · simp [moneyline_to_implied_prob, hnot]
    · intro s
      simp [moneyline_to_payout, hnot]

/-! ### No-lookahead and cold-start lemmas for the form window -/

theorem filterMap_ext {α β : Type} (l : List α) (f f2 : α → Option β)
    (h : ∀ a ∈ l, f a = f2 a) : l.filterMap f = l.filterMap f2 := by
  induction l with
  | nil => rfl
  | cons a rest ih =>
    rw [List.filterMap_cons, List.filterMap_cons,
      h a (List.mem_cons_self a rest),
      ih fun b hb => h b (List.mem_cons_of_mem a hb)]

theorem filter_middle_false {α : Type} (p : α → Bool) (l₁ l₂ : List α)
    (x : α) (hx : p x = false) :
    (l₁ ++ x :: l₂).filter p = (l₁ ++ l₂).filter p := by
  simp [List.filter_append, List.filter_cons, hx]

theorem find?_middle_of_ne (l₁ l₂ : List Game) (g : Game) (gid : ℕ)
    (hne : (g.game_id == gid) = false) :
    (l₁ ++ g :: l₂).find? (fun h => h.game_id == gid) =
      (l₁ ++ l₂).find? (fun h => h.game_id == gid) := by
  induction l₁ with
  | nil =>
    simp only [List.nil_append]
    rw [List.find?_cons, hne]
  | cons a rest ih =>
    simp only [List.cons_append]
    rw [List.find?_cons, List.find?_cons]
    cases a.game_id == gid with
    | true => rfl
    | false => exact ih

theorem find?_middle_self (l₁ l₂ : List Game) (g : Game)
    (hfresh : ∀ h ∈ l₁ ++ l₂, h.game_id ≠ g.game_id) :
    (l₁ ++ g :: l₂).find? (fun h => h.game_id == g.game_id) = some g ∧
    (l₁ ++ l₂).find? (fun h => h.game_id == g.game_id) = none := by
  constructor
  · induction l₁ with
    | nil =>
      simp only [List.nil_append]
      rw [List.find?_cons]
      simp
    | cons a rest ih =>
      have ha : (a.game_id == g.game_id) = false := by
        simpa using hfresh a (by simp)
      simp only [List.cons_append]
      rw [List.find?_cons, ha]
      exact ih fun h hh => hfresh h (by
        rcases List.mem_append.1 hh with h1 | h1
        · exact List.mem_append_left _ (List.mem_cons_of_mem a h1)
        · exact List.mem_append_right _ h1)
  · rw [List.find?_eq_none]
    intro x hx
    simpa using hfresh x hx

theorem rolling_box_scores_insert (l₁ l₂ : List Game)
    (B : List TeamBoxScore) (g : Game) (D t w : ℕ)
    (hdate : D ≤ g.date)
    (hfresh : ∀ h ∈ l₁ ++ l₂, h.game_id ≠ g.game_id) :
    rolling_box_scores ⟨l₁ ++ g :: l₂, B⟩ t D w =
      rolling_box_scores ⟨l₁ ++ l₂, B⟩ t D w := by
  unfold rolling_box_scores
  have hmaps :
      (B.filterMap fun bs =>
        if bs.team_id = t then
          match (l₁ ++ g :: l₂).find? (fun g2 => g2.game_id == bs.game_id) with
          | some g2 =>
            if g2.date < D ∧ g2.home_score.isSome then some (bs, g2) else none
          | none => none
        else none) =
      B.filterMap fun bs =>
        if bs.team_id = t then
          match (l₁ ++ l₂).find? (fun g2 => g2.game_id == bs.game_id) with
          | some g2 =>
            if g2.date < D ∧ g2.home_score.isSome then some (bs, g2) else none
          | none => none
        else none := by
    apply filterMap_ext
    intro bs _
    by_cases hteam : bs.team_id = t
    · rw [if_pos hteam, if_pos hteam]
      by_cases hid : g.game_id = bs.game_id
      · rw [← hid]
        obtain ⟨hnew, hold⟩ := find?_middle_self l₁ l₂ g hfresh
        rw [hnew, hold]
        show (if g.date < D ∧ g.home_score.isSome = true
          then some (bs, g) else none) = none
        rw [if_neg fun hcon => absurd hcon.1 (not_lt.2 hdate)]
      · have hid2 : (g.game_id == bs.game_id) = false := by
          simpa using hid
        rw [find?_middle_of_ne l₁ l₂ g bs.game_id hid2]
    · rw [if_neg hteam, if_neg hteam]
  exact congrArg (fun L => (sort_by_date_desc (fun p => p.2.date) L).take w) hmaps

/-- C2: the three form-window lookups at a cutoff date are unchanged
by inserting, anywhere into the game log, a game dated at or after
the cutoff with a fresh game id: each of them only references
completed games strictly before the cutoff. -/
theorem C2_no_lookahead (l₁ l₂ : List Game) (B : List TeamBoxScore)
    (g : Game) (D t o w : ℕ)
    (hdate : D ≤ g.date)
    (hfresh : ∀ h ∈ l₁ ++ l₂, h.game_id ≠ g.game_id) :
    get_rolling_averages ⟨l₁ ++ g :: l₂, B⟩ t D w =
      get_rolling_averages ⟨l₁ ++ l₂, B⟩ t D w ∧
    get_h2h_win_pct ⟨l₁ ++ g :: l₂, B⟩ t o D =
      get_h2h_win_pct ⟨l₁ ++ l₂, B⟩ t o D ∧
    get_days_rest ⟨l₁ ++ g :: l₂, B⟩ t D =
      get_days_rest ⟨l₁ ++ l₂, B⟩ t D := by
  have hdlt : decide (g.date < D) = false := by
    simp [not_lt.2 hdate]
  refine ⟨?_, ?_, ?_⟩
  · unfold get_rolling_averages
    rw [rolling_box_scores_insert l₁ l₂ B g D t w hdate hfresh]
  · have hgames : h2h_games ⟨l₁ ++ g :: l₂, B⟩ t o D =
        h2h_games ⟨l₁ ++ l₂, B⟩ t o D := by
      unfold h2h_games
      show (l₁ ++ g :: l₂).filter _ = (l₁ ++ l₂).filter _
      apply filter_middle_false
      rw [hdlt]
      simp
    unfold get_h2h_win_pct
    rw [hgames]
  · have hgames : rest_games ⟨l₁ ++ g :: l₂, B⟩ t D =
        rest_games ⟨l₁ ++ l₂, B⟩ t D := by
      unfold rest_games
      show (l₁ ++ g :: l₂).filter _ = (l₁ ++ l₂).filter _
      apply filter_middle_false
      rw [hdlt]
      simp
    unfold get_days_rest
    rw [hgames]

/-- Witness for C2: inserting a same-day scheduled game into an
empty log. -/
theorem C2_no_lookahead_witness :
    get_rolling_averages ⟨[] ++ scheduled_game :: [], []⟩ 1 11 10 =
      get_rolling_averages ⟨[] ++ [], []⟩ 1 11 10 ∧
    get_h2h_win_pct ⟨[] ++ scheduled_game :: [], []⟩ 1 2 11 =
      get_h2h_win_pct ⟨[] ++ [], []⟩ 1 2 11 ∧
    get_days_rest ⟨[] ++ scheduled_game :: [], []⟩ 1 11 =
      get_days_rest ⟨[] ++ [], []⟩ 1 11 :=
  C2_no_lookahead [] [] [] scheduled_game 11 1 2 10
    (by simp [scheduled_game]) (by intro h hh; cases hh)

/-- C7: cold-start defaults of the three form-window lookups: with
no qualifying box score the rolling averages are all zero, with no
completed mutual game the head-to-head rate is exactly 0.5, and with
no completed prior game the rest days are exactly 3; each call
returns its default rather than failing. -/
theorem C7_cold_start_defaults (db : Db) (t o D w : ℕ)
    (h1 : ∀ bs ∈ db.box_scores, bs.team_id = t →
      ∀ g ∈ db.games, g.game_id = bs.game_id →
        ¬(g.date < D ∧ g.home_score.isSome = true))
    (h2 : ∀ g ∈ db.games,
      ¬(((g.home_team_id = t ∧ g.away_team_id = o) ∨
         (g.home_team_id = o ∧ g.away_team_id = t)) ∧
        g.date < D ∧ g.home_score.isSome = true))
    (h3 : ∀ g ∈ db.games,
      (∃ bs ∈ db.box_scores, bs.team_id = t ∧ bs.game_id = g.game_id) →
        ¬(g.date < D ∧ g.home_score.isSome = true)) :
    get_rolling_averages db t D w = zero_rolling_stats ∧
    get_h2h_win_pct db t o D = 0.5 ∧
    get_days_rest db t D = 3 := by
  refine ⟨?_, ?_, ?_⟩
  · have hroll : rolling_box_scores db t D w = [] := by
      unfold rolling_box_scores
      have hfm : (db.box_scores.filterMap fun bs =>
          if bs.team_id = t then
            match db.games.find? (fun g2 => g2.game_id == bs.game_id) with
            | some g2 =>
              if g2.date < D ∧ g2.home_score.isSome then some (bs, g2)
              else none
            | none => none
          else none) = [] := by
        rw [List.filterMap_eq_nil_iff]
        intro bs hbs
        by_cases hteam : bs.team_id = t
        · rw [if_pos hteam]
          cases hfind : db.games.find? (fun g2 => g2.game_id == bs.game_id) with
          | none => rfl
          | some g2 =>
            have hmem := List.mem_of_find?_eq_some hfind
            have hid : g2.game_id = bs.game_id := by
              simpa using List.find?_some hfind
            show (if g2.date < D ∧ g2.home_score.isSome = true
              then some (bs, g2) else none) = none
            rw [if_neg (h1 bs hbs hteam g2 hmem hid)]
        · rw [if_neg hteam]
      rw [hfm]
      simp [sort_by_date_desc, sort_by]
    simp [get_rolling_averages, hroll]
  · have hgames : h2h_games db t o D = [] := by
      unfold h2h_games
      rw [List.filter_eq_nil_iff]
      intro g hg
      simp only [Bool.and_eq_true, Bool.or_eq_true, beq_iff_eq,
        decide_eq_true_eq, not_and]
      intro hpd hsome
      exact h2 g hg ⟨hpd.1, hpd.2, hsome⟩
    simp [get_h2h_win_pct, hgames]
  · have hgames : rest_games db t D = [] := by
      unfold rest_games
      rw [List.filter_eq_nil_iff]
      intro g hg
      simp only [Bool.and_eq_true, beq_iff_eq, decide_eq_true_eq,
        List.any_eq_true, not_and]
      intro hbd hsome
      obtain ⟨⟨bs, hbsmem, hbst, hbsid⟩, hdlt⟩ := hbd
      exact h3 g hg ⟨bs, hbsmem, hbst, hbsid⟩ ⟨hdlt, hsome⟩
    simp [get_days_rest, hgames, sort_by_date_desc, sort_by]

/-- Witness for C7 on a database holding one future scheduled
game. -/
theorem C7_cold_start_defaults_witness :
    get_rolling_averages ⟨[scheduled_game], []⟩ 1 20 10 = zero_rolling_stats ∧
    get_h2h_win_pct ⟨[scheduled_game], []⟩ 1 2 20 = 0.5 ∧
    get_days_rest ⟨[scheduled_game], []⟩ 1 20 = 3 :=
  C7_cold_start_defaults ⟨[scheduled_game], []⟩ 1 2 20 10
    (by intro bs hbs; cases hbs)
    (by
      intro g hg
      simp only [List.mem_singleton] at hg
      simp [hg, scheduled_game])
    (by
      intro g hg hbs
      obtain ⟨bs, hbsmem, _⟩ := hbs
      cases hbsmem)

/-! ### Sorting permutation lemmas and feature-builder lemmas -/

theorem ins_by_perm {α : Type} (keep : α → α → Bool) (x : α)
    (l : List α) : (ins_by keep x l).Perm (x :: l) := by
  induction l with
  | nil => exact List.Perm.refl _
  | cons y ys ih =>
    rw [ins_by]
    by_cases h : keep y x = true
    · rw [if_pos h]
      exact (ih.cons y).trans (List.Perm.swap x y ys)
    · rw [if_neg h]

theorem sort_by_perm {α : Type} (keep : α → α → Bool) (l : List α) :
    (sort_by keep l).Perm l := by
  induction l with
  | nil => exact List.Perm.refl _
  | cons a rest ih =>
    show (ins_by keep a (sort_by keep rest)).Perm (a :: rest)
    exact (ins_by_perm keep a _).trans (ih.cons a)

theorem mk_home_row_game_id (db : Db) (g : Game) :
    (mk_home_row db g).game_id = g.game_id := rfl

theorem mk_away_row_game_id (db : Db) (g : Game) :
    (mk_away_row db g).game_id = g.game_id := rfl

theorem mk_home_row_elo_diff (db : Db) (g : Game) :
    (mk_home_row db g).elo_diff =
      elo_or_initial g.home_team_pregame_elo -
        elo_or_initial g.away_team_pregame_elo := rfl

theorem mk_away_row_elo_diff (db : Db) (g : Game) :
    (mk_away_row db g).elo_diff =
      elo_or_initial g.away_team_pregame_elo -
        elo_or_initial g.home_team_pregame_elo := rfl

theorem mk_home_row_rest_advantage (db : Db) (g : Game) :
    (mk_home_row db g).rest_advantage =
      get_days_rest db g.home_team_id g.date -
        get_days_rest db g.away_team_id g.date := rfl

theorem mk_away_row_rest_advantage (db : Db) (g : Game) :
    (mk_away_row db g).rest_advantage =
      get_days_rest db g.away_team_id g.date -
        get_days_rest db g.home_team_id g.date := rfl

theorem mk_home_row_target (db : Db) (g : Game) :
    (mk_home_row db g).target_did_win =
      if g.away_score.getD 0 < g.home_score.getD 0 then 1 else 0 := rfl

theorem mk_away_row_target (db : Db) (g : Game) :
    (mk_away_row db g).target_did_win =
      1 - (if g.away_score.getD 0 < g.home_score.getD 0 then 1 else 0) := rfl

theorem feature_rows_loop_countP_zero (db : Db) (L : List Game) (gid : ℕ)
    (h : ∀ g2 ∈ L, g2.game_id ≠ gid) :
    (feature_rows_loop db L).countP (fun r => r.game_id == gid) = 0 := by
  induction L with
  | nil => rfl
  | cons a rest ih =>
    rw [feature_rows_loop]
    have hrest := ih fun g2 hg2 => h g2 (List.mem_cons_of_mem a hg2)
    have hid : ((mk_home_row db a).game_id == gid) = false := by
      rw [mk_home_row_game_id]
      simpa using h a (List.mem_cons_self a rest)
    have hid2 : ((mk_away_row db a).game_id == gid) = false := by
      rw [mk_away_row_game_id]
      simpa using h a (List.mem_cons_self a rest)
    by_cases hskip : (a.home_score.isNone || a.away_score.isNone) = true
    · rw [if_pos hskip]
      exact hrest
    · rw [if_neg hskip, List.countP_cons, List.countP_cons, hid, hid2, hrest]
      simp

theorem feature_rows_loop_countP_two (db : Db) (L : List Game) (g : Game)
    (hnd : (L.map Game.game_id).Nodup) (hg : g ∈ L)
    (hhs : g.home_score.isSome) (has : g.away_score.isSome) :
    (feature_rows_loop db L).countP (fun r => r.game_id == g.game_id) = 2 := by
  induction L with
  | nil => cases hg
  | cons a rest ih =>
    rw [List.map_cons, List.nodup_cons] at hnd
    rw [feature_rows_loop]
    rcases List.mem_cons.1 hg with h | h
    · subst h
      have hskip : (g.home_score.isNone || g.away_score.isNone) = false := by
        obtain ⟨v1, hv1⟩ := Option.isSome_iff_exists.1 hhs
        obtain ⟨v2, hv2⟩ := Option.isSome_iff_exists.1 has
        rw [hv1, hv2]
        rfl
      rw [if_neg (by rw [hskip]; exact Bool.false_ne_true)]
      have hrest : (feature_rows_loop db rest).countP
          (fun r => r.game_id == g.game_id) = 0 := by
        apply feature_rows_loop_countP_zero
        intro g2 hg2 hc
        exact hnd.1 (hc ▸ List.mem_map_of_mem Game.game_id hg2)
      rw [List.countP_cons, List.countP_cons, hrest,
        mk_home_row_game_id, mk_away_row_game_id]
      simp
    · have hne : (a.game_id == g.game_id) = false := by
        have : a.game_id ≠ g.game_id := by
          intro hc
          exact hnd.1 (hc ▸ List.mem_map_of_mem Game.game_id h)
        simpa using this
      have hrec := ih hnd.2 h
      by_cases hskip : (a.home_score.isNone || a.away_score.isNone) = true
      · rw [if_pos hskip]
        exact hrec
      · rw [if_neg hskip, List.countP_cons, List.countP_cons,
          mk_home_row_game_id, mk_away_row_game_id, hne, hrec]
        simp

theorem feature_rows_loop_mem (db : Db) (L : List Game) (g : Game)
    (hg : g ∈ L) (hhs : g.home_score.isSome) (has : g.away_score.isSome) :
    mk_home_row db g ∈ feature_rows_loop db L ∧
    mk_away_row db g ∈ feature_rows_loop db L := by
  induction L with
  | nil => cases hg
  | cons a rest ih =>
    rw [feature_rows_loop]
    rcases List.mem_cons.1 hg with h | h
    · subst h
      have hskip : (g.home_score.isNone || g.away_score.isNone) = false := by
        obtain ⟨v1, hv1⟩ := Option.isSome_iff_exists.1 hhs
        obtain ⟨v2, hv2⟩ := Option.isSome_iff_exists.1 has
        rw [hv1, hv2]
        rfl
      rw [if_neg (by rw [hskip]; exact Bool.false_ne_true)]
      exact ⟨List.mem_cons_self _ _,
        List.mem_cons_of_mem _ (List.mem_cons_self _ _)⟩
    · obtain ⟨ih1, ih2⟩ := ih h
      by_cases hskip : (a.home_score.isNone || a.away_score.isNone) = true
      · rw [if_pos hskip]
        exact ⟨ih1, ih2⟩
      · rw [if_neg hskip]
        exact ⟨List.mem_cons_of_mem _ (List.mem_cons_of_mem _ ih1),
          List.mem_cons_of_mem _ (List.mem_cons_of_mem _ ih2)⟩

/-- C9: a completed game emits exactly two rows, one per perspective;
the away elo difference and rest advantage are the negations of the
home ones, and the two win targets sum to exactly 1. -/
theorem C9_feature_symmetry (db : Db) (sf : Option ℤ) (g : Game)
    (hs as_ : ℤ)
    (hnd : (db.games.map Game.game_id).Nodup)
    (hmem : g ∈ db.games)
    (hhs : g.home_score = some hs) (has : g.away_score = some as_)
    (hseason : season_matches sf g.season = true) :
    (create_feature_set db sf).countP
        (fun r => r.game_id == g.game_id) = 2 ∧
    mk_home_row db g ∈ create_feature_set db sf ∧
    mk_away_row db g ∈ create_feature_set db sf ∧
    (mk_away_row db g).elo_diff = -(mk_home_row db g).elo_diff ∧
    (mk_away_row db g).rest_advantage =
      -(mk_home_row db g).rest_advantage ∧
    (mk_home_row db g).target_did_win +
      (mk_away_row db g).target_did_win = 1 := by
  have hhs2 : g.home_score.isSome := by rw [hhs]; rfl
  have has2 : g.away_score.isSome := by rw [has]; rfl
  have hF : g ∈ db.games.filter
      (fun g2 => g2.home_score.isSome && season_matches sf g2.season) :=
    List.mem_filter.2 ⟨hmem, by rw [hhs2, hseason]; rfl⟩
  have hperm := sort_by_perm
    (fun y x => decide ((fun g2 : Game => g2.date) y ≤ (fun g2 : Game => g2.date) x))
    (db.games.filter fun g2 => g2.home_score.isSome && season_matches sf g2.season)
  have hsorted_mem : g ∈ sort_by_date_asc (fun g2 => g2.date)
      (db.games.filter fun g2 =>
        g2.home_score.isSome && season_matches sf g2.season) :=
    hperm.mem_iff.2 hF
  have hnd2 : ((sort_by_date_asc (fun g2 => g2.date)
      (db.games.filter fun g2 =>
        g2.home_score.isSome && season_matches sf g2.season)).map
      Game.game_id).Nodup := by
    have hsub : ((db.games.filter fun g2 =>
        g2.home_score.isSome && season_matches sf g2.season).map
        Game.game_id).Sublist (db.games.map Game.game_id) :=
      (List.filter_sublist db.games).map Game.game_id
    exact ((hperm.map Game.game_id).nodup_iff).2 (hnd.sublist hsub)
  refine ⟨feature_rows_loop_countP_two db _ g hnd2 hsorted_mem hhs2 has2,
    (feature_rows_loop_mem db _ g hsorted_mem hhs2 has2).1,
    (feature_rows_loop_mem db _ g hsorted_mem hhs2 has2).2, ?_, ?_, ?_⟩
  · rw [mk_away_row_elo_diff, mk_home_row_elo_diff]
    ring
  · rw [mk_away_row_rest_advantage, mk_home_row_rest_advantage]
    ring
  · rw [mk_home_row_target, mk_away_row_target]
    ring

/-- Witness for C9 on a one-game database. -/
theorem C9_feature_symmetry_witness :
    (create_feature_set ⟨[sample_game], []⟩ none).countP
        (fun r => r.game_id == sample_game.game_id) = 2 ∧
    mk_home_row ⟨[sample_game], []⟩ sample_game ∈
      create_feature_set ⟨[sample_game], []⟩ none ∧
    mk_away_row ⟨[sample_game], []⟩ sample_game ∈
      create_feature_set ⟨[sample_game], []⟩ none ∧
    (mk_away_row ⟨[sample_game], []⟩ sample_game).elo_diff =
      -(mk_home_row ⟨[sample_game], []⟩ sample_game).elo_diff ∧
    (mk_away_row ⟨[sample_game], []⟩ sample_game).rest_advantage =
      -(mk_home_row ⟨[sample_game], []⟩ sample_game).rest_advantage ∧
    (mk_home_row ⟨[sample_game], []⟩ sample_game).target_did_win +
      (mk_away_row ⟨[sample_game], []⟩ sample_game).target_did_win = 1 :=
  C9_feature_symmetry ⟨[sample_game], []⟩ none sample_game 100 90
    (by simp [sample_game]) (List.mem_singleton.2 rfl) rfl rfl rfl

/-- Witness for C8 at concrete inputs. -/
theorem C8_odds_conversion_witness :
    moneyline_to_implied_prob 200 = 100 / ((200 : ℚ) + 100) ∧
    moneyline_to_payout (-200) 50 = 50 * (1 + 100 / ((200 : ℕ) : ℚ)) := by
  constructor
  · exact (C8_odds_conversion.1 200 (by decide)).1
  · exact ((C8_odds_conversion.2.1 (-200) (by decide)).2 50)

/-! ### Backtest simulator lemmas -/

theorem loss_ne_win : ("LOSS" : String) ≠ "WIN" := by decide

theorem sim_step_none (predict : FeatureRow → ℚ) (odds_list : List Odds)
    (eth amt : ℚ) (st : SimState) (row : FeatureRow)
    (h : bet_of predict odds_list eth amt row = none) :
    sim_step predict odds_list eth amt st row = st := by
  unfold bet_of at h
  cases ho : first_odds odds_list row.game_id with
  | none => simp [sim_step, ho]
  | some odds =>
    simp only [ho] at h
    cases hml : (if row.is_home ≠ 0 then odds.home_team_moneyline
        else odds.away_team_moneyline) with
    | none => simp [sim_step, ho, hml]
    | some ml =>
      simp only [hml] at h
      by_cases hedge : predict row - moneyline_to_implied_prob ml > eth
      · rw [if_pos hedge] at h
        by_cases hwin : row.target_did_win = 1
        · rw [if_pos hwin] at h
          exact absurd h (by simp)
        · rw [if_neg hwin] at h
          exact absurd h (by simp)
      · simp [sim_step, ho, hml, hedge]

theorem sim_step_some (predict : FeatureRow → ℚ) (odds_list : List Odds)
    (eth amt : ℚ) (st : SimState) (row : FeatureRow) (b : BetRecord)
    (h : bet_of predict odds_list eth amt row = some b) :
    sim_step predict odds_list eth amt st row =
      { total_bets := st.total_bets + 1
        total_won := st.total_won + (if b.result = "WIN" then 1 else 0)
        total_profit := st.total_profit + b.profit
        bets_placed := st.bets_placed ++ [b] } := by
  unfold bet_of at h
  cases ho : first_odds odds_list row.game_id with
  | none => simp [ho] at h
  | some odds =>
    simp only [ho] at h
    cases hml : (if row.is_home ≠ 0 then odds.home_team_moneyline
        else odds.away_team_moneyline) with
    | none => simp [hml] at h
    | some ml =>
      simp only [hml] at h
      by_cases hedge : predict row - moneyline_to_implied_prob ml > eth
      · rw [if_pos hedge] at h
        by_cases hwin : row.target_did_win = 1
        · rw [if_pos hwin] at h
          have hb := Option.some.inj h
          subst hb
          simp [sim_step, ho, hml, hedge, hwin]
        · rw [if_neg hwin] at h
          have hb := Option.some.inj h
          subst hb
          simp [sim_step, ho, hml, hedge, hwin, loss_ne_win]
      · rw [if_neg hedge] at h
        exact absurd h (by simp)

theorem sim_foldl_eq (predict : FeatureRow → ℚ) (odds_list : List Odds)
    (eth amt : ℚ) (rows : List FeatureRow) (st : SimState) :
    rows.foldl (sim_step predict odds_list eth amt) st =
      { total_bets := st.total_bets +
          (rows.filterMap (bet_of predict odds_list eth amt)).length
        total_won := st.total_won +
          ((rows.filterMap (bet_of predict odds_list eth amt)).filter
            (fun b => b.result = "WIN")).length
        total_profit := st.total_profit +
          ((rows.filterMap (bet_of predict odds_list eth amt)).map
            BetRecord.profit).sum
        bets_placed := st.bets_placed ++
          rows.filterMap (bet_of predict odds_list eth amt) } := by
  induction rows generalizing st with
  | nil =>
    cases st with
    | mk a b c d => simp
  | cons row rest ih =>
    rw [List.foldl_cons]
    cases hb : bet_of predict odds_list eth amt row with
    | none =>
      rw [sim_step_none predict odds_list eth amt st row hb,
        List.filterMap_cons_none hb]
      exact ih st
    | some b =>
      rw [sim_step_some predict odds_list eth amt st row b hb,
        List.filterMap_cons_some hb, ih]
      simp only [SimState.mk.injEq, List.length_cons, List.filter_cons,
        List.map_cons, List.sum_cons]
      refine ⟨by omega, ?_, by ring, by simp⟩
      by_cases hw : b.result = "WIN"
      · simp [hw]
        omega
      · simp [hw]

theorem bet_of_spec (predict : FeatureRow → ℚ) (odds_list : List Odds)
    (eth amt : ℚ) (row : FeatureRow) (b : BetRecord)
    (h : bet_of predict odds_list eth amt row = some b) :
    b.edge > eth ∧
    b.profit = (if b.result = "WIN"
      then moneyline_to_payout b.moneyline amt - amt else -amt) := by
  unfold bet_of at h
  cases ho : first_odds odds_list row.game_id with
  | none => simp [ho] at h
  | some odds =>
    simp only [ho] at h
    cases hml : (if row.is_home ≠ 0 then odds.home_team_moneyline
        else odds.away_team_moneyline) with
    | none => simp [hml] at h
    | some ml =>
      simp only [hml] at h
      by_cases hedge : predict row - moneyline_to_implied_prob ml > eth
      · rw [if_pos hedge] at h
        by_cases hwin : row.target_did_win = 1
        · rw [if_pos hwin] at h
          have hb := Option.some.inj h
          subst hb
          exact ⟨hedge, by simp⟩
        · rw [if_neg hwin] at h
          have hb := Option.some.inj h
          subst hb
          exact ⟨hedge, by simp [loss_ne_win]⟩
      · rw [if_neg hedge] at h
        exact absurd h (by simp)

theorem backtest_bet_a :
    bet_of backtest_predict backtest_odds (3 / 100) 100 bet_row_a =
      some win_bet_a := by
  have ho : first_odds backtest_odds bet_row_a.game_id =
      some ⟨101, some (-150), some 100⟩ := rfl
  unfold bet_of
  simp only [ho]
  norm_num [bet_row_a, base_row, backtest_predict,
    moneyline_to_implied_prob, moneyline_to_payout, win_bet_a]

theorem backtest_bet_b :
    bet_of backtest_predict backtest_odds (3 / 100) 100 bet_row_b =
      some loss_bet_b := by
  have ho : first_odds backtest_odds bet_row_b.game_id =
      some ⟨102, some 120, none⟩ := rfl
  unfold bet_of
  simp only [ho]
  norm_num [bet_row_b, base_row, backtest_predict,
    moneyline_to_implied_prob, moneyline_to_payout, loss_bet_b]

theorem backtest_bet_c :
    bet_of backtest_predict backtest_odds (3 / 100) 100 bet_row_c = none := by
  have ho : first_odds backtest_odds bet_row_c.game_id =
      some ⟨103, some 100, some 100⟩ := rfl
  unfold bet_of
  simp only [ho]
  norm_num [bet_row_c, base_row, backtest_predict,
    moneyline_to_implied_prob, moneyline_to_payout]

theorem backtest_run_eq :
    run_profitability_simulation backtest_predict
      [bet_row_a, bet_row_b, bet_row_c] backtest_odds 2024 (3 / 100) 100 =
      some backtest_report := by
  have hfilter : ([bet_row_a, bet_row_b, bet_row_c].filter
      fun r => r.season == (2024 : ℤ)) = [bet_row_a, bet_row_b, bet_row_c] := by
    simp [List.filter, bet_row_a, bet_row_b, bet_row_c, base_row]
  have hFM : ([bet_row_a, bet_row_b, bet_row_c].filterMap
      (bet_of backtest_predict backtest_odds (3 / 100) 100)) =
      [win_bet_a, loss_bet_b] := by
    rw [List.filterMap_cons_some backtest_bet_a,
      List.filterMap_cons_some backtest_bet_b,
      List.filterMap_cons_none backtest_bet_c, List.filterMap_nil]
  unfold run_profitability_simulation
  rw [hfilter]
  rw [if_neg (by simp)]
  rw [sim_foldl_eq, hFM]
  have hwl : (([win_bet_a, loss_bet_b].filter
      (fun b => b.result = "WIN"))) = [win_bet_a] := by
    simp [List.filter, win_bet_a, loss_bet_b, loss_ne_win]
  rw [hwl]
  simp only [SimReport.mk.injEq]
  norm_num [win_bet_a, loss_bet_b, backtest_report]

/-- C3: a bet is placed exactly when a quote with a non-null
moneyline for the row perspective exists and the edge strictly
exceeds the threshold; skipped rows contribute nothing; profit is
payout minus stake on a win and minus the stake on a loss; win rate
and roi follow the stated formulas with 0 when no bets are placed;
and on the synthetic three-row set the simulation yields 2 bets, 1
won, total profit -100/3 (within 0.01 of -33.33) and roi -50/3
(within 0.01 of -16.67 percent). -/
theorem C3_backtest (predict : FeatureRow → ℚ) (features : List FeatureRow)
    (odds_list : List Odds) (season : ℤ) (eth amt : ℚ) (rep : SimReport)
    (hrep : run_profitability_simulation predict features odds_list season
      eth amt = some rep) :
    (rep.bets_placed = (features.filter fun r => r.season == season).filterMap
        (bet_of predict odds_list eth amt) ∧
      rep.total_bets = rep.bets_placed.length ∧
      rep.total_won = (rep.bets_placed.filter
        (fun b => b.result = "WIN")).length ∧
      rep.total_profit = (rep.bets_placed.map BetRecord.profit).sum ∧
      rep.win_rate = (if rep.total_bets = 0 then 0
        else (rep.total_won : ℚ) / (rep.total_bets : ℚ) * 100) ∧
      rep.roi = (if rep.total_bets = 0 then 0
        else rep.total_profit / ((rep.total_bets : ℚ) * amt) * 100)) ∧
    (∀ b ∈ rep.bets_placed, b.edge > eth ∧
      b.profit = (if b.result = "WIN"
        then moneyline_to_payout b.moneyline amt - amt else -amt)) ∧
    (run_profitability_simulation backtest_predict
        [bet_row_a, bet_row_b, bet_row_c] backtest_odds 2024 (3 / 100) 100 =
        some backtest_report ∧
      backtest_report.total_bets = 2 ∧ backtest_report.total_won = 1 ∧
      backtest_report.total_profit = -100 / 3 ∧
      backtest_report.roi = -50 / 3 ∧
      |backtest_report.total_profit - (-3333 / 100)| ≤ 1 / 100 ∧
      |backtest_report.roi - (-1667 / 100)| ≤ 1 / 100) := by
  unfold run_profitability_simulation at hrep
  by_cases hemp : ((features.filter fun r => r.season == season).isEmpty) = true
  · rw [if_pos hemp] at hrep
    exact absurd hrep (by simp)
  · rw [if_neg hemp] at hrep
    have hrec := Option.some.inj hrep
    subst hrec
    rw [sim_foldl_eq]
    refine ⟨⟨by simp, by simp, ?_, by simp, ?_, ?_⟩, ?_, backtest_run_eq,
      rfl, rfl, rfl, rfl, by norm_num [backtest_report, abs_le],
      by norm_num [backtest_report, abs_le]⟩
    · simp
    · by_cases hz : (([] : List BetRecord) ++
          (features.filter fun r => r.season == season).filterMap
            (bet_of predict odds_list eth amt)).length = 0
      · simp only [List.nil_append] at hz ⊢
        simp [hz]
      · simp only [List.nil_append] at hz ⊢
        rw [if_pos (by omega), if_neg (by simpa using hz)]
    · by_cases hz : (([] : List BetRecord) ++
          (features.filter fun r => r.season == season).filterMap
            (bet_of predict odds_list eth amt)).length = 0
      · simp only [List.nil_append] at hz ⊢
        simp [hz]
      · simp only [List.nil_append] at hz ⊢
        rw [if_pos (by omega), if_neg (by simpa using hz)]
    · intro b hb
      simp only [List.nil_append, List.mem_filterMap] at hb
      obtain ⟨row, _, hrow⟩ := hb
      exact bet_of_spec predict odds_list eth amt row b hrow

/-- Witness for C3 on the synthetic three-row set. -/
theorem C3_backtest_witness :
    backtest_report.bets_placed =
      (([bet_row_a, bet_row_b, bet_row_c].filter
        fun r => r.season == (2024 : ℤ)).filterMap
        (bet_of backtest_predict backtest_odds (3 / 100) 100)) ∧
    backtest_report.total_bets = backtest_report.bets_placed.length :=
  let h := C3_backtest backtest_predict [bet_row_a, bet_row_b, bet_row_c]
    backtest_odds 2024 (3 / 100) 100 backtest_report backtest_run_eq
  ⟨h.1.1, h.1.2.1⟩

/-! ### Inference-time rating lookup lemmas -/

theorem sort_by_date_desc_head_max {α : Type} (key : α → ℕ) (l : List α)
    (hne : l ≠ []) :
    ∃ mx, (sort_by_date_desc key l).head? = some mx ∧ mx ∈ l ∧
      ∀ y ∈ l, key y ≤ key mx := by
  induction l with
  | nil => exact absurd rfl hne
  | cons a rest ih =>
    by_cases hr : rest = []
    · subst hr
      refine ⟨a, rfl, List.mem_singleton.2 rfl, ?_⟩
      intro y hy
      rw [List.mem_singleton.1 hy]
    · obtain ⟨mx, hhead, hmem, hmax⟩ := ih hr
      have hs : sort_by_date_desc key (a :: rest) =
          ins_by (fun y x2 => decide (key x2 ≤ key y)) a
            (sort_by_date_desc key rest) := rfl
      cases hsr : sort_by_date_desc key rest with
      | nil => rw [hsr] at hhead; cases hhead
      | cons m tl =>
        rw [hsr] at hhead
        have hm : m = mx := by simpa using hhead
        subst hm
        rw [hs, hsr, ins_by]
        by_cases hk : key a ≤ key m
        · rw [if_pos (by simpa using hk)]
          refine ⟨m, rfl, List.mem_cons_of_mem a hmem, ?_⟩
          intro y hy
          rcases List.mem_cons.1 hy with h | h
          · rw [h]; exact hk
          · exact hmax y h
        · rw [if_neg (by simpa using hk)]
          refine ⟨a, rfl, List.mem_cons_self a rest, ?_⟩
          intro y hy
          rcases List.mem_cons.1 hy with h | h
          · rw [h]
          · exact le_trans (hmax y h) (le_of_lt (lt_of_not_le hk))

theorem sort_by_date_desc_head_unique {α : Type} (key : α → ℕ)
    (l : List α) (x : α) (hx : x ∈ l)
    (hmax : ∀ y ∈ l, y ≠ x → key y < key x) :
    (sort_by_date_desc key l).head? = some x := by
  obtain ⟨mx, hhead, hmem, hbound⟩ := sort_by_date_desc_head_max key l
    (by intro h; rw [h] at hx; cases hx)
  by_cases hmx : mx = x
  · rw [← hmx]
    exact hhead
  · have h1 := hmax mx hmem hmx
    have h2 := hbound x hx
    omega

/-- C4 counterexample: after the rating pass over a single decisive
game between two fresh teams, the inference-time lookup returns the
stamped pregame rating plus 15, which differs from the true
post-update rating of the winner held in the final dict. -/
theorem C4_counterexample :
    (calculate_elo_ratings [1, 2] [sample_game]).elim False
      (fun p => get_current_elo ⟨p.1, []⟩ 1 ≠ (p.2 1).getD 0) := by
  have hh : init_ratings [1, 2] sample_game.home_team_id =
      some ELO_INITIAL := by simp [init_ratings, sample_game]
  have ha : init_ratings [1, 2] sample_game.away_team_id =
      some ELO_INITIAL := by simp [init_ratings, sample_game]
  have hpg := process_game_result (init_ratings [1, 2]) sample_game
    ELO_INITIAL ELO_INITIAL 100 90 hh ha rfl rfl
  have hrun : calculate_elo_ratings [1, 2] [sample_game] =
      some ([stamp_pregame sample_game ELO_INITIAL ELO_INITIAL],
        c4_final_ratings) := by
    rw [calculate_elo_ratings, process_games_cons, hpg, Option.some_bind,
      process_games_nil, Option.map_some']
    rfl
  rw [hrun]
  show get_current_elo
      ⟨[stamp_pregame sample_game ELO_INITIAL ELO_INITIAL], []⟩ 1 ≠
    (c4_final_ratings 1).getD 0
  have hcur : get_current_elo
      ⟨[stamp_pregame sample_game ELO_INITIAL ELO_INITIAL], []⟩ 1 =
      ELO_INITIAL + 15 := rfl
  have hfr : (c4_final_ratings 1).getD 0 =
      ELO_INITIAL + ELO_K_FACTOR *
        (1 - expected_home_win ELO_INITIAL ELO_INITIAL) := by
    norm_num [c4_final_ratings, sample_game]
  set T := (10 : ℝ) ^
    ((ELO_INITIAL - (ELO_INITIAL + ELO_HOME_ADVANTAGE)) / 400) with hT
  have he : expected_home_win ELO_INITIAL ELO_INITIAL = 1 / (1 + T) := rfl
  have hTpos : 0 < T := Real.rpow_pos_of_pos (by norm_num) _
  have hT1 : T < 1 := by
    rw [hT]
    apply Real.rpow_lt_one_of_one_lt_of_neg (by norm_num)
    norm_num [ELO_INITIAL, ELO_HOME_ADVANTAGE]
  have h1T : (0 : ℝ) < 1 + T := by linarith
  have hehalf : (1 : ℝ) / 2 < 1 / (1 + T) :=
    one_div_lt_one_div_of_lt h1T (by linarith)
  rw [hcur, hfr, he]
  intro hcon
  simp only [ELO_INITIAL, ELO_K_FACTOR] at hcon
  have := hehalf
  nlinarith [hcon, hehalf]

/-- C4 amended: the current rating used at inference is not the true
post-update rating but the heuristic of the source: the stamped
pregame rating of the most recent rated game of the team, plus 15 if
the team won it and minus 15 otherwise. -/
theorem C4_heuristic_current_elo (db : Db) (t : ℕ) (g : Game)
    (hs as_ : ℤ)
    (hmem : g ∈ db.games)
    (hside : g.home_team_id = t ∨ g.away_team_id = t)
    (hrated : g.home_team_pregame_elo.isSome = true)
    (hmax : ∀ h ∈ db.games,
      (h.home_team_id = t ∨ h.away_team_id = t) →
      h.home_team_pregame_elo.isSome = true → h ≠ g → h.date < g.date)
    (hhs : g.home_score = some hs) (has : g.away_score = some as_) :
    get_current_elo db t =
      (if (g.home_team_id = t ∧ as_ < hs) ∨ (g.away_team_id = t ∧ hs < as_)
       then (if g.home_team_id = t
         then g.home_team_pregame_elo.getD ELO_INITIAL
         else g.away_team_pregame_elo.getD ELO_INITIAL) + 15
       else (if g.home_team_id = t
         then g.home_team_pregame_elo.getD ELO_INITIAL
         else g.away_team_pregame_elo.getD ELO_INITIAL) - 15) := by
  have hpred : (((g.home_team_id == t) || (g.away_team_id == t)) &&
      g.home_team_pregame_elo.isSome) = true := by
    rcases hside with h | h <;> simp [h, hrated]
  have hcand : g ∈ db.games.filter (fun g2 =>
      ((g2.home_team_id == t) || (g2.away_team_id == t)) &&
      g2.home_team_pregame_elo.isSome) := List.mem_filter.2 ⟨hmem, hpred⟩
  have hmr : most_recent_rated_game db t = some g := by
    unfold most_recent_rated_game
    apply sort_by_date_desc_head_unique
    · exact hcand
    · intro y hy hne
      obtain ⟨hymem, hypred⟩ := List.mem_filter.1 hy
      simp only [Bool.and_eq_true, Bool.or_eq_true, beq_iff_eq] at hypred
      exact hmax y hymem hypred.1 hypred.2 hne
  unfold get_current_elo
  rw [hmr]
  simp only [hhs, has]

/-- Witness for the amended C4 on a one-game stamped database. -/
theorem C4_heuristic_current_elo_witness :
    get_current_elo
        ⟨[stamp_pregame sample_game ELO_INITIAL ELO_INITIAL], []⟩ 1 =
      (if ((stamp_pregame sample_game ELO_INITIAL ELO_INITIAL).home_team_id
            = 1 ∧ (90 : ℤ) < 100) ∨
          ((stamp_pregame sample_game ELO_INITIAL ELO_INITIAL).away_team_id
            = 1 ∧ (100 : ℤ) < 90)
       then (if (stamp_pregame sample_game ELO_INITIAL
            ELO_INITIAL).home_team_id = 1
         then (stamp_pregame sample_game ELO_INITIAL
            ELO_INITIAL).home_team_pregame_elo.getD ELO_INITIAL
         else (stamp_pregame sample_game ELO_INITIAL
            ELO_INITIAL).away_team_pregame_elo.getD ELO_INITIAL) + 15
       else (if (stamp_pregame sample_game ELO_INITIAL
            ELO_INITIAL).home_team_id = 1
         then (stamp_pregame sample_game ELO_INITIAL
            ELO_INITIAL).home_team_pregame_elo.getD ELO_INITIAL
         else (stamp_pregame sample_game ELO_INITIAL
            ELO_INITIAL).away_team_pregame_elo.getD ELO_INITIAL) - 15) :=
  C4_heuristic_current_elo
    ⟨[stamp_pregame sample_game ELO_INITIAL ELO_INITIAL], []⟩ 1
    (stamp_pregame sample_game ELO_INITIAL ELO_INITIAL) 100 90
    (List.mem_singleton.2 rfl) (Or.inl rfl) rfl
    (by
      intro h hh _ _ hne
      exact absurd (List.mem_singleton.1 hh) hne)
    rfl rfl

end PredictiveEdge
